/-
Verification of the portbroker request-translation and multi-provider
failover gateway.

This file shallowly embeds the relevant parts of the source
(app/services/strategy_service.py, app/services/provider_service.py,
app/services/translation.py, app/api/v1/anthropic.py, app/api/v1/chat.py)
as executable Lean definitions and proves theorems about them.

Conventions:
* Python dicts decoded from JSON are modelled by the inductive `JVal`.
* `json_loads` models Python `json.loads` on the JSON fragment this
  service actually exchanges (strings, integers, booleans, null, arrays,
  objects; no floats and no unicode escapes).
* Python exceptions are modelled with `Except String`, carrying the
  exception message.
-/
import Mathlib

namespace PortBroker

/-! ## JSON values -/

/-- A JSON value, the model of a Python object decoded from JSON. -/
inductive JVal where
  | null
  | bool (b : Bool)
  | num (n : Int)
  | str (s : String)
  | arr (elems : List JVal)
  | obj (fields : List (String × JVal))

/-- Python truthiness of a decoded JSON value: `None`, `False`, `0`,
the empty string, the empty list and the empty dict are falsy. -/
def jtruthy : JVal → Bool
  | .null => false
  | .bool b => b
  | .num n => n != 0
  | .str s => s != ""
  | .arr l => !l.isEmpty
  | .obj l => !l.isEmpty

/-- `d.get(k)` on a decoded JSON object: `none` models Python `None`
when the key is missing (and also when the value is not a dict). -/
def objGet : JVal → String → Option JVal
  | .obj fields, k => (fields.find? (fun f => f.1 == k)).map (fun f => f.2)
  | _, _ => none

/-- `d.get(k, default)` on a decoded JSON object. -/
def objGetD (v : JVal) (k : String) (dflt : JVal) : JVal :=
  match objGet v k with
  | some w => w
  | none => dflt

/-! ## Small pieces of Python string behaviour -/

/-- Python `str.strip()` on the whitespace this service meets
(space, tab, carriage return, line feed). -/
def pyStrip (s : String) : String :=
  ⟨(s.data.dropWhile Char.isWhitespace).reverse.dropWhile Char.isWhitespace |>.reverse⟩

/-- Python `str.lower()` on the ASCII model names this service
compares: character-wise lowercase mapping. -/
def pyLower (s : String) : String :=
  ⟨s.data.map Char.toLower⟩

/-! ## Finish-reason mapping (app/api/v1/anthropic.py) -/

/-- The Anthropic `StopReason` enum (app/schemas/anthropic.py). -/
inductive StopReason where
  | end_turn
  | stop_sequence
  | max_tokens
  | tool_use
deriving DecidableEq

/-- The `.value` string of a `StopReason` member. -/
def StopReason.value : StopReason → String
  | .end_turn => "end_turn"
  | .stop_sequence => "stop_sequence"
  | .max_tokens => "max_tokens"
  | .tool_use => "tool_use"

/-- `map_openai_finish_reason_to_anthropic` (app/api/v1/anthropic.py):
a fixed four-entry table consulted with `dict.get`, defaulting to
`end_turn` for any other key. -/
def map_openai_finish_reason_to_anthropic (finish_reason : String) : StopReason :=
  if finish_reason == "stop" then .end_turn
  else if finish_reason == "length" then .max_tokens
  else if finish_reason == "content_filter" then .end_turn
  else if finish_reason == "tool_calls" then .tool_use
  else .end_turn

/-- C5: the OpenAI-to-Anthropic finish-reason mapping is total and
matches the documented table: `stop`, `length`, `content_filter` and
`tool_calls` map to `end_turn`, `max_tokens`, `end_turn` and `tool_use`
respectively, and every other input string maps to `end_turn`. -/
theorem finish_reason_mapping_totality :
    map_openai_finish_reason_to_anthropic "stop" = .end_turn
    ∧ map_openai_finish_reason_to_anthropic "length" = .max_tokens
    ∧ map_openai_finish_reason_to_anthropic "content_filter" = .end_turn
    ∧ map_openai_finish_reason_to_anthropic "tool_calls" = .tool_use
    ∧ ∀ s : String, s ≠ "stop" → s ≠ "length" → s ≠ "content_filter" →
        s ≠ "tool_calls" → map_openai_finish_reason_to_anthropic s = .end_turn := by
  refine ⟨rfl, rfl, rfl, rfl, ?_⟩
  intro s h1 h2 h3 h4
  simp only [map_openai_finish_reason_to_anthropic]
  rw [if_neg (by simpa using h1), if_neg (by simpa using h2),
    if_neg (by simpa using h3), if_neg (by simpa using h4)]

/-- Witness for C5: the defaulting clause evaluated at the concrete
unknown value `"weird_reason"`. -/
theorem finish_reason_mapping_totality_witness :
    map_openai_finish_reason_to_anthropic "weird_reason" = .end_turn :=
  finish_reason_mapping_totality.2.2.2.2 "weird_reason"
    (by decide) (by decide) (by decide) (by decide)

/-! ## Strategy-based model resolution (app/services/strategy_service.py)

The database rows are modelled as plain records; the providers table is a
`List Provider` and the strategies table (with its eagerly loaded
`provider_mappings` relationship) is a `List ModelStrategy`. -/

/-- A row of the `providers` table (app/models/strategy.py), restricted
to the columns the resolver and gateway read. -/
structure Provider where
  id : Int
  name : String
  base_url : String
  api_key : String
  model_list : List String
  headers : List (String × String)
  medium_model : Option String
  verify_ssl : Bool
  is_active : Bool
deriving DecidableEq

/-- A row of `strategy_provider_mappings` (app/models/strategy.py). -/
structure StrategyProviderMapping where
  provider_id : Int
  large_models : List String
  medium_models : List String
  small_models : List String
  selected_models : List String
  priority : Int
  is_active : Bool
deriving DecidableEq

/-- A row of `model_strategies` together with its loaded provider
mappings. `fallback_order` is a JSON column: `none` models SQL NULL. -/
structure ModelStrategy where
  name : String
  strategy_type : String
  fallback_enabled : Bool
  fallback_order : Option (List String)
  is_active : Bool
  provider_mappings : List StrategyProviderMapping
deriving DecidableEq

/-- `ModelMappingRequest` (app/schemas/strategy.py). -/
structure ModelMappingRequest where
  requested_model : String
  strategy_type : String
  preferred_tier : Option String
deriving DecidableEq

/-- `ModelMappingResponse` (app/schemas/strategy.py). -/
structure ModelMappingResponse where
  mapped_model : String
  provider_id : Int
  provider_name : String
  tier_used : String
  fallback_used : Bool
  available_models : List String
deriving DecidableEq

/-- `getattr(mapping, f"<tier>_models", [])`: the tier lists are looked
up by attribute name, with `[]` for an attribute that does not exist. -/
def tierModels (m : StrategyProviderMapping) : String → List String
  | "large" => m.large_models
  | "medium" => m.medium_models
  | "small" => m.small_models
  | _ => []

/-- One step of the stable insertion sort modelling a Python
`sorted(...)` call with strict comparison `lt`: `m` passes every earlier
element strictly smaller than it and lands before the rest, so equal
elements keep their original order. -/
def pyInsertBy {α : Type} (lt : α → α → Bool) (m : α) : List α → List α
  | [] => [m]
  | x :: xs => if lt x m then x :: pyInsertBy lt m xs else m :: x :: xs

/-- A stable sort ascending w.r.t. the strict comparison `lt`, the
model of Python `sorted` and of an SQL `ORDER BY ... ASC`. -/
def pySortBy {α : Type} (lt : α → α → Bool) (l : List α) : List α :=
  l.foldr (pyInsertBy lt) []

theorem pyInsertBy_mem {α : Type} (lt : α → α → Bool) (m : α) :
    ∀ (l : List α) (y : α), y ∈ pyInsertBy lt m l → y = m ∨ y ∈ l := by
  intro l
  induction l with
  | nil => intro y hy; simp [pyInsertBy] at hy; exact .inl hy
  | cons x xs ih =>
    intro y hy
    rw [pyInsertBy] at hy
    by_cases hlt : lt x m = true
    · rw [if_pos hlt] at hy
      rcases List.mem_cons.mp hy with hy | hy
      · exact .inr (hy ▸ List.mem_cons_self x xs)
      · rcases ih y hy with hy | hy
        · exact .inl hy
        · exact .inr (List.mem_cons_of_mem x hy)
    · rw [if_neg hlt] at hy
      rcases List.mem_cons.mp hy with hy | hy
      · exact .inl hy
      · exact .inr hy

theorem pyInsertBy_sorted {α : Type} (lt : α → α → Bool)
    (hasym : ∀ a b, lt a b = true → lt b a = false)
    (htrans : ∀ a b c, lt b a = false → lt c b = false → lt c a = false)
    (m : α) :
    ∀ l : List α, l.Sorted (fun a b => lt b a = false) →
      (pyInsertBy lt m l).Sorted (fun a b => lt b a = false) := by
  intro l
  induction l with
  | nil => intro _; simp [pyInsertBy]
  | cons x xs ih =>
    intro hs
    rw [List.sorted_cons] at hs
    obtain ⟨hx, hxs⟩ := hs
    rw [pyInsertBy]
    by_cases hlt : lt x m = true
    · rw [if_pos hlt, List.sorted_cons]
      refine ⟨?_, ih hxs⟩
      intro y hy
      rcases pyInsertBy_mem lt m xs y hy with hy | hy
      · exact hy ▸ hasym x m hlt
      · exact hx y hy
    · rw [if_neg hlt, List.sorted_cons]
      rw [Bool.not_eq_true] at hlt
      refine ⟨?_, List.sorted_cons.mpr ⟨hx, hxs⟩⟩
      intro y hy
      rcases List.mem_cons.mp hy with hy | hy
      · exact hy ▸ hlt
      · exact htrans m x y hlt (hx y hy)

theorem pySortBy_sorted {α : Type} (lt : α → α → Bool)
    (hasym : ∀ a b, lt a b = true → lt b a = false)
    (htrans : ∀ a b c, lt b a = false → lt c b = false → lt c a = false)
    (l : List α) : (pySortBy lt l).Sorted (fun a b => lt b a = false) := by
  induction l with
  | nil => simp [pySortBy]
  | cons x xs ih => exact pyInsertBy_sorted lt hasym htrans x (pySortBy lt xs) ih

/-- Lexicographic strict comparison of character lists by code point:
the order `ORDER BY name ASC` gives the ASCII provider names. -/
def charListLt : List Char → List Char → Bool
  | [], [] => false
  | [], _ :: _ => true
  | _ :: _, [] => false
  | c :: cs, d :: ds =>
    if c.toNat < d.toNat then true
    else if d.toNat < c.toNat then false
    else charListLt cs ds

/-- Lexicographic strict comparison of strings by code point. -/
def strLt (a b : String) : Bool :=
  charListLt a.data b.data

theorem charListLt_asymm : ∀ l1 l2 : List Char,
    charListLt l1 l2 = true → charListLt l2 l1 = false := by
  intro l1
  induction l1 with
  | nil =>
    intro l2 h
    cases l2 with
    | nil => cases h
    | cons d ds => rfl
  | cons c cs ih =>
    intro l2 h
    cases l2 with
    | nil => cases h
    | cons d ds =>
      rw [charListLt] at h ⊢
      by_cases h1 : c.toNat < d.toNat
      · rw [if_neg (by omega), if_pos h1]
      · by_cases h2 : d.toNat < c.toNat
        · rw [if_neg h1, if_pos h2] at h
          cases h
        · rw [if_neg h1, if_neg h2] at h
          rw [if_neg h2, if_neg h1]
          exact ih ds h

theorem charListLt_le_trans : ∀ a b c : List Char,
    charListLt b a = false → charListLt c b = false → charListLt c a = false := by
  intro a
  induction a with
  | nil =>
    intro b c _ _
    cases c with
    | nil => rfl
    | cons c0 cT =>
      cases b with
      | nil => rfl
      | cons b0 bT => rfl
  | cons a0 aT ih =>
    intro b c h1 h2
    cases b with
    | nil => simp [charListLt] at h1
    | cons b0 bT =>
      cases c with
      | nil => simp [charListLt] at h2
      | cons c0 cT =>
        rw [charListLt] at h1 h2 ⊢
        by_cases hba : b0.toNat < a0.toNat
        · rw [if_pos hba] at h1
          cases h1
        · by_cases hcb : c0.toNat < b0.toNat
          · rw [if_pos hcb] at h2
            cases h2
          · rw [if_neg (by omega : ¬ c0.toNat < a0.toNat)]
            by_cases hac : a0.toNat < c0.toNat
            · rw [if_pos hac]
            · rw [if_neg hac]
              rw [if_neg hba, if_neg (by omega : ¬ a0.toNat < b0.toNat)] at h1
              rw [if_neg hcb, if_neg (by omega : ¬ b0.toNat < c0.toNat)] at h2
              exact ih bT cT h1 h2


/-- Python `sorted(mappings, key=lambda x: x.priority)` (strategy_service.py
line 224-227): a stable sort ascending by the `priority` field. -/
def sortByPriority (l : List StrategyProviderMapping) : List StrategyProviderMapping :=
  pySortBy (fun a b => decide (a.priority < b.priority)) l

/-- The dict `active_providers = {p.id: p for p in providers_result}`
built from `select(Provider).where(Provider.id.in_(...), Provider.is_active
== True)`, looked up with `active_providers.get(mapping.provider_id)`. -/
def findActiveProvider (db : List Provider) (pid : Int) : Option Provider :=
  (db.filter (fun p => p.is_active)).find? (fun p => p.id == pid)

/-- The exact-match response built at strategy_service.py lines 258-265. -/
def exactResponse (provider : Provider) (tier model : String)
    (models : List String) : ModelMappingResponse :=
  { mapped_model := model
    provider_id := provider.id
    provider_name := provider.name
    tier_used := tier
    fallback_used := false
    available_models := models }

/-- The fallback response built at strategy_service.py lines 290-297. -/
def fallbackResponse (provider : Provider) (tier model : String)
    (models : List String) : ModelMappingResponse :=
  { mapped_model := model
    provider_id := provider.id
    provider_name := provider.name
    tier_used := tier
    fallback_used := true
    available_models := models }

/-- The inner `for model in models` loop of the exact-match pass:
return on the first model that case-insensitively equals the requested
model and is contained in the provider catalog `model_list`. -/
def exactModelScan (req : ModelMappingRequest) (provider : Provider)
    (tier : String) (models : List String) : List String → Option ModelMappingResponse
  | [] => none
  | model :: rest =>
    if pyLower req.requested_model == pyLower model
        && provider.model_list.contains model then
      some (exactResponse provider tier model models)
    else exactModelScan req provider tier models rest

/-- The `for tier in ["large", "medium", "small"]` loop of the
exact-match pass. -/
def exactTierScan (req : ModelMappingRequest) (provider : Provider)
    (mapping : StrategyProviderMapping) : List String → Option ModelMappingResponse
  | [] => none
  | tier :: rest =>
    (exactModelScan req provider tier (tierModels mapping tier)
        (tierModels mapping tier)).or
      (exactTierScan req provider mapping rest)

/-- The outer `for mapping in provider_mappings` loop of the exact-match
pass (strategy_service.py lines 245-265): a mapping whose provider is
not in the active-provider dict is skipped with `continue`. -/
def exactMatchPass (db : List Provider) (req : ModelMappingRequest) :
    List StrategyProviderMapping → Option ModelMappingResponse
  | [] => none
  | mapping :: rest =>
    match findActiveProvider db mapping.provider_id with
    | none => exactMatchPass db req rest
    | some provider =>
      (exactTierScan req provider mapping ["large", "medium", "small"]).or
        (exactMatchPass db req rest)

/-- The `for tier in fallback_order` loop of the fallback pass
(strategy_service.py lines 276-297): for each tier with a non-empty
model list, return the first model of that list present in the provider
catalog. -/
def fallbackTierScan (provider : Provider) (mapping : StrategyProviderMapping) :
    List String → Option ModelMappingResponse
  | [] => none
  | tier :: rest =>
    let models := tierModels mapping tier
    if !models.isEmpty then
      match models.find? (fun model => provider.model_list.contains model) with
      | some model => some (fallbackResponse provider tier model models)
      | none => fallbackTierScan provider mapping rest
    else fallbackTierScan provider mapping rest

/-- The outer `for mapping in provider_mappings` loop of the fallback
pass (strategy_service.py lines 270-297). -/
def fallbackPass (db : List Provider) (fallback_order : List String) :
    List StrategyProviderMapping → Option ModelMappingResponse
  | [] => none
  | mapping :: rest =>
    match findActiveProvider db mapping.provider_id with
    | none => fallbackPass db fallback_order rest
    | some provider =>
      (fallbackTierScan provider mapping fallback_order).or
        (fallbackPass db fallback_order rest)

/-- The fallback order used by `_map_anthropic_model`: the strategy's
configured JSON list when it is one, else `["large", "medium", "small"]`. -/
def effectiveFallbackOrder (strategy : ModelStrategy) : List String :=
  match strategy.fallback_order with
  | some l => l
  | none => ["large", "medium", "small"]

/-- The active provider mappings of a strategy in ascending priority
order (strategy_service.py lines 224-227). -/
def activeMappingsByPriority (strategy : ModelStrategy) : List StrategyProviderMapping :=
  sortByPriority (strategy.provider_mappings.filter (fun m => m.is_active))

/-- `StrategyService._map_anthropic_model` (strategy_service.py lines
209-301): exact-match pass over all tiers, then, when
`fallback_enabled`, the fallback pass over `fallback_order`; a
`ValueError` is modelled as `.error` with the exception message. -/
def mapAnthropicModel (db : List Provider) (strategy : ModelStrategy)
    (req : ModelMappingRequest) : Except String ModelMappingResponse :=
  let provider_mappings := activeMappingsByPriority strategy
  if provider_mappings.isEmpty then
    .error ("No active providers found for strategy: " ++ strategy.name)
  else
    match exactMatchPass db req provider_mappings with
    | some r => .ok r
    | none =>
      if strategy.fallback_enabled then
        match fallbackPass db (effectiveFallbackOrder strategy) provider_mappings with
        | some r => .ok r
        | none => .error ("No suitable model found for: " ++ req.requested_model)
      else .error ("No suitable model found for: " ++ req.requested_model)

/-- The `for selected_model in selected_models` exact loop of
`_map_openai_model` (strategy_service.py lines 339-352). -/
def openaiExactScan (req : ModelMappingRequest) (provider : Provider) :
    List String → List String → Option ModelMappingResponse
  | _, [] => none
  | selected_models, model :: rest =>
    if pyLower req.requested_model == pyLower model
        && provider.model_list.contains model then
      some { mapped_model := model
             provider_id := provider.id
             provider_name := provider.name
             tier_used := "openai"
             fallback_used := false
             available_models := selected_models }
    else openaiExactScan req provider selected_models rest

/-- The provider loop of the exact pass of `_map_openai_model`. -/
def openaiExactPass (db : List Provider) (req : ModelMappingRequest) :
    List StrategyProviderMapping → Option ModelMappingResponse
  | [] => none
  | mapping :: rest =>
    match findActiveProvider db mapping.provider_id with
    | none => openaiExactPass db req rest
    | some provider =>
      match openaiExactScan req provider mapping.selected_models
          mapping.selected_models with
      | some r => some r
      | none => openaiExactPass db req rest

/-- The provider loop of the fallback pass of `_map_openai_model`
(strategy_service.py lines 355-371). -/
def openaiFallbackPass (db : List Provider) :
    List StrategyProviderMapping → Option ModelMappingResponse
  | [] => none
  | mapping :: rest =>
    match findActiveProvider db mapping.provider_id with
    | none => openaiFallbackPass db rest
    | some provider =>
      match mapping.selected_models.find?
          (fun model => provider.model_list.contains model) with
      | some model =>
        some { mapped_model := model
               provider_id := provider.id
               provider_name := provider.name
               tier_used := "openai"
               fallback_used := true
               available_models := mapping.selected_models }
      | none => openaiFallbackPass db rest

/-- `StrategyService._map_openai_model` (strategy_service.py lines
303-375). -/
def mapOpenaiModel (db : List Provider) (strategy : ModelStrategy)
    (req : ModelMappingRequest) : Except String ModelMappingResponse :=
  let provider_mappings := activeMappingsByPriority strategy
  if provider_mappings.isEmpty then
    .error ("No active providers found for strategy: " ++ strategy.name)
  else
    match openaiExactPass db req provider_mappings with
    | some r => .ok r
    | none =>
      if strategy.fallback_enabled then
        match openaiFallbackPass db provider_mappings with
        | some r => .ok r
        | none => .error ("No suitable model found for: " ++ req.requested_model)
      else .error ("No suitable model found for: " ++ req.requested_model)

/-- `StrategyService.get_strategies` (strategy_service.py lines 76-89):
all strategies, filtered by `strategy_type` when one is given; the
`is_active` column is not consulted. -/
def getStrategies (strategies : List ModelStrategy) (strategy_type : Option String) :
    List ModelStrategy :=
  match strategy_type with
  | some t => if t != "" then strategies.filter (fun s => s.strategy_type == t)
              else strategies
  | none => strategies

/-- `StrategyService.map_model` (strategy_service.py lines 178-207):
look up the strategies of the requested type, fail when there are none,
then dispatch on the strategy type using the first strategy returned. -/
def mapModel (db : List Provider) (strategies : List ModelStrategy)
    (req : ModelMappingRequest) : Except String ModelMappingResponse :=
  match getStrategies strategies (some req.strategy_type) with
  | [] => .error ("No strategies found for type: " ++ req.strategy_type)
  | strategy :: _ =>
    if req.strategy_type == "anthropic" then mapAnthropicModel db strategy req
    else if req.strategy_type == "openai" then mapOpenaiModel db strategy req
    else .error ("Unsupported strategy type: " ++ req.strategy_type)

/-! ### Spec-side scan lists

The two following definitions transcribe the specification wording of
the two resolver passes as flat candidate lists in scan order; the
theorems below show the source passes return exactly the head of the
respective list. -/

/-- The exact-match candidates one provider mapping contributes, in
scan order: nothing when its provider is inactive or unknown, else one
candidate per tier model (tiers in the fixed order large, medium, small)
that case-insensitively equals the requested model and is present in the
provider catalog. -/
def exactCandidatesOf (db : List Provider) (req : ModelMappingRequest)
    (mapping : StrategyProviderMapping) : List ModelMappingResponse :=
  match findActiveProvider db mapping.provider_id with
  | none => []
  | some provider =>
    ["large", "medium", "small"].flatMap fun tier =>
      (tierModels mapping tier).filterMap fun model =>
        if pyLower req.requested_model == pyLower model
            && provider.model_list.contains model then
          some (exactResponse provider tier model (tierModels mapping tier))
        else none

/-- The spec wording of the exact-match pass: all candidates with
providers in ascending mapping priority and tiers in the fixed order
large, medium, small. -/
def exactScanCandidates (db : List Provider) (strategy : ModelStrategy)
    (req : ModelMappingRequest) : List ModelMappingResponse :=
  (activeMappingsByPriority strategy).flatMap (exactCandidatesOf db req)

/-- The fallback candidates one provider mapping contributes, in scan
order: for each tier of the fallback order, the first model of the tier
list that is present in the provider catalog. -/
def fallbackCandidatesOf (db : List Provider) (order : List String)
    (mapping : StrategyProviderMapping) : List ModelMappingResponse :=
  match findActiveProvider db mapping.provider_id with
  | none => []
  | some provider =>
    order.filterMap fun tier =>
      ((tierModels mapping tier).find?
          (fun model => provider.model_list.contains model)).map
        (fun model => fallbackResponse provider tier model (tierModels mapping tier))

/-- The spec wording of the fallback pass: all fallback candidates with
providers in ascending mapping priority and tiers in the strategy's
fallback order. -/
def fallbackScanCandidates (db : List Provider) (strategy : ModelStrategy) :
    List ModelMappingResponse :=
  (activeMappingsByPriority strategy).flatMap
    (fallbackCandidatesOf db (effectiveFallbackOrder strategy))

theorem exactModelScan_eq_head (req : ModelMappingRequest) (provider : Provider)
    (tier : String) (models : List String) (l : List String) :
    exactModelScan req provider tier models l =
      (l.filterMap fun model =>
        if pyLower req.requested_model == pyLower model
            && provider.model_list.contains model then
          some (exactResponse provider tier model models)
        else none).head? := by
  induction l with
  | nil => rfl
  | cons m rest ih =>
    rw [exactModelScan, List.filterMap_cons]
    cases h : (pyLower req.requested_model == pyLower m
        && provider.model_list.contains m) with
    | false => exact ih
    | true => rfl

theorem exactTierScan_eq_head (req : ModelMappingRequest) (provider : Provider)
    (mapping : StrategyProviderMapping) (tiers : List String) :
    exactTierScan req provider mapping tiers =
      (tiers.flatMap fun tier =>
        (tierModels mapping tier).filterMap fun model =>
          if pyLower req.requested_model == pyLower model
              && provider.model_list.contains model then
            some (exactResponse provider tier model (tierModels mapping tier))
          else none).head? := by
  induction tiers with
  | nil => rfl
  | cons tier rest ih =>
    rw [List.flatMap_cons, exactTierScan, exactModelScan_eq_head, ih,
      List.head?_append]

theorem exactMatchPass_eq_head (db : List Provider) (req : ModelMappingRequest)
    (mappings : List StrategyProviderMapping) :
    exactMatchPass db req mappings =
      (mappings.flatMap (exactCandidatesOf db req)).head? := by
  induction mappings with
  | nil => rfl
  | cons mapping rest ih =>
    rw [List.flatMap_cons, exactMatchPass]
    unfold exactCandidatesOf
    cases hp : findActiveProvider db mapping.provider_id with
    | none => rw [ih]; rfl
    | some provider =>
      dsimp only
      rw [exactTierScan_eq_head, ih, List.head?_append]
      rfl

theorem fallbackTierScan_eq_head (provider : Provider)
    (mapping : StrategyProviderMapping) (tiers : List String) :
    fallbackTierScan provider mapping tiers =
      (tiers.filterMap fun tier =>
        ((tierModels mapping tier).find?
            (fun model => provider.model_list.contains model)).map
          (fun model =>
            fallbackResponse provider tier model (tierModels mapping tier))).head? := by
  induction tiers with
  | nil => rfl
  | cons tier rest ih =>
    rw [fallbackTierScan, List.filterMap_cons]
    cases hm : tierModels mapping tier with
    | nil => exact ih
    | cons m ms =>
      cases hf : (m :: ms).find? (fun model => provider.model_list.contains model) with
      | none => exact ih
      | some model => rfl

theorem fallbackPass_eq_head (db : List Provider) (order : List String)
    (mappings : List StrategyProviderMapping) :
    fallbackPass db order mappings =
      (mappings.flatMap (fallbackCandidatesOf db order)).head? := by
  induction mappings with
  | nil => rfl
  | cons mapping rest ih =>
    rw [List.flatMap_cons, fallbackPass]
    unfold fallbackCandidatesOf
    cases hp : findActiveProvider db mapping.provider_id with
    | none => rw [ih]; rfl
    | some provider =>
      dsimp only
      rw [fallbackTierScan_eq_head, ih, List.head?_append]
      rfl


theorem exactMatchPass_eq_candidates (db : List Provider)
    (strategy : ModelStrategy) (req : ModelMappingRequest) :
    exactMatchPass db req (activeMappingsByPriority strategy) =
      (exactScanCandidates db strategy req).head? :=
  exactMatchPass_eq_head db req (activeMappingsByPriority strategy)

theorem fallbackPass_eq_candidates (db : List Provider)
    (strategy : ModelStrategy) :
    fallbackPass db (effectiveFallbackOrder strategy)
        (activeMappingsByPriority strategy) =
      (fallbackScanCandidates db strategy).head? :=
  fallbackPass_eq_head db (effectiveFallbackOrder strategy)
    (activeMappingsByPriority strategy)

theorem exactScanCandidates_fallback_used (db : List Provider)
    (strategy : ModelStrategy) (req : ModelMappingRequest) :
    ∀ r ∈ exactScanCandidates db strategy req, r.fallback_used = false := by
  intro r hr
  rw [exactScanCandidates] at hr
  simp only [List.mem_flatMap] at hr
  obtain ⟨mapping, -, hr⟩ := hr
  unfold exactCandidatesOf at hr
  cases hp : findActiveProvider db mapping.provider_id with
  | none => rw [hp] at hr; cases hr
  | some provider =>
    rw [hp] at hr
    simp only [List.mem_flatMap, List.mem_filterMap] at hr
    obtain ⟨tier, -, model, -, hmod⟩ := hr
    cases hc : (pyLower req.requested_model == pyLower model
        && provider.model_list.contains model) with
    | false => rw [hc] at hmod; simp at hmod
    | true =>
      rw [if_pos hc] at hmod
      injection hmod with hmod
      rw [← hmod]
      rfl

theorem fallbackScanCandidates_fallback_used (db : List Provider)
    (strategy : ModelStrategy) :
    ∀ r ∈ fallbackScanCandidates db strategy, r.fallback_used = true := by
  intro r hr
  rw [fallbackScanCandidates] at hr
  simp only [List.mem_flatMap] at hr
  obtain ⟨mapping, -, hr⟩ := hr
  unfold fallbackCandidatesOf at hr
  cases hp : findActiveProvider db mapping.provider_id with
  | none => rw [hp] at hr; cases hr
  | some provider =>
    rw [hp] at hr
    simp only [List.mem_filterMap] at hr
    obtain ⟨tier, -, hmod⟩ := hr
    cases hf : (tierModels mapping tier).find?
        (fun model => provider.model_list.contains model) with
    | none => rw [hf] at hmod; cases hmod
    | some model =>
      rw [hf] at hmod
      simp only [Option.map] at hmod
      injection hmod with hmod
      rw [← hmod]
      rfl

/-- `_map_anthropic_model` returns the exact-match result whenever the
exact-match pass finds one. -/
theorem mapAnthropicModel_of_exact (db : List Provider)
    (strategy : ModelStrategy) (req : ModelMappingRequest)
    (r : ModelMappingResponse)
    (h : exactMatchPass db req (activeMappingsByPriority strategy) = some r) :
    mapAnthropicModel db strategy req = .ok r := by
  have hne : (activeMappingsByPriority strategy).isEmpty = false := by
    cases hm : activeMappingsByPriority strategy with
    | nil => rw [hm] at h; cases h
    | cons a l => rfl
  simp only [mapAnthropicModel]
  rw [hne, h]
  rfl

/-- `map_model` dispatches to `_map_anthropic_model` on the first
strategy of the requested type when that type is `anthropic`. -/
theorem mapModel_anthropic (db : List Provider)
    (strategies : List ModelStrategy) (req : ModelMappingRequest)
    (strategy : ModelStrategy) (rest : List ModelStrategy)
    (hty : req.strategy_type = "anthropic")
    (hs : getStrategies strategies (some req.strategy_type) = strategy :: rest) :
    mapModel db strategies req = mapAnthropicModel db strategy req := by
  rw [mapModel, hs]
  dsimp only
  rw [hty]
  rfl

/-- C1: whenever the exact-match scan has at least one candidate — an
active mapping of the first anthropic strategy, with an active provider,
holding in some tier a model case-insensitively equal to the requested
model and present in the provider catalog — `map_model` returns the
first candidate in scan order (providers ascending by mapping priority,
tiers in the fixed order large, medium, small), with `fallback_used =
false`, and `_map_anthropic_model` gives that same result for either
value of `fallback_enabled`. -/
theorem resolver_exact_match_precedence (db : List Provider)
    (strategies : List ModelStrategy) (req : ModelMappingRequest)
    (strategy : ModelStrategy) (rest : List ModelStrategy)
    (r : ModelMappingResponse) (crest : List ModelMappingResponse)
    (hty : req.strategy_type = "anthropic")
    (hs : getStrategies strategies (some req.strategy_type) = strategy :: rest)
    (hc : exactScanCandidates db strategy req = r :: crest) :
    mapModel db strategies req = .ok r
    ∧ r.fallback_used = false
    ∧ ∀ b : Bool,
        mapAnthropicModel db { strategy with fallback_enabled := b } req = .ok r := by
  have hpass : exactMatchPass db req (activeMappingsByPriority strategy) = some r := by
    rw [exactMatchPass_eq_candidates, hc]
    rfl
  refine ⟨?_, ?_, ?_⟩
  · rw [mapModel_anthropic db strategies req strategy rest hty hs]
    exact mapAnthropicModel_of_exact db strategy req r hpass
  · exact exactScanCandidates_fallback_used db strategy req r (by rw [hc]; exact .head _)
  · intro b
    exact mapAnthropicModel_of_exact db _ req r hpass

/-- Witness data for the resolver claims: one active provider whose
catalog has three models. -/
def wProvider : Provider :=
  { id := 1
    name := "p1"
    base_url := "https://p1.example"
    api_key := "k1"
    model_list := ["gpt-4o", "m-large", "m-small"]
    headers := []
    medium_model := none
    verify_ssl := true
    is_active := true }

/-- Witness data: an anthropic strategy mapping `wProvider` with a
large-tier list containing `m-large`. -/
def wStrategy : ModelStrategy :=
  { name := "s1"
    strategy_type := "anthropic"
    fallback_enabled := true
    fallback_order := none
    is_active := true
    provider_mappings :=
      [{ provider_id := 1
         large_models := ["m-large"]
         medium_models := []
         small_models := []
         selected_models := []
         priority := 1
         is_active := true }] }

/-- Witness for C1: requesting `M-LARGE` (case differing from the
configured `m-large`) returns the configured model from the large tier
without fallback. -/
theorem resolver_exact_match_precedence_witness :
    mapModel [wProvider] [wStrategy]
        { requested_model := "M-LARGE", strategy_type := "anthropic",
          preferred_tier := none } =
      .ok { mapped_model := "m-large", provider_id := 1, provider_name := "p1",
            tier_used := "large", fallback_used := false,
            available_models := ["m-large"] } :=
  (resolver_exact_match_precedence [wProvider] [wStrategy]
    { requested_model := "M-LARGE", strategy_type := "anthropic",
      preferred_tier := none }
    wStrategy [] _ [] rfl (by decide) (by decide)).1

/-- `_map_anthropic_model` behaviour when the exact-match pass finds
nothing: the fallback branch decides the outcome. -/
theorem mapAnthropicModel_of_no_exact (db : List Provider)
    (strategy : ModelStrategy) (req : ModelMappingRequest)
    (hmaps : (activeMappingsByPriority strategy).isEmpty = false)
    (hexact : exactScanCandidates db strategy req = []) :
    mapAnthropicModel db strategy req =
      if strategy.fallback_enabled then
        match (fallbackScanCandidates db strategy).head? with
        | some r => .ok r
        | none => .error ("No suitable model found for: " ++ req.requested_model)
      else .error ("No suitable model found for: " ++ req.requested_model) := by
  simp only [mapAnthropicModel]
  rw [hmaps]
  rw [exactMatchPass_eq_candidates, hexact]
  rw [fallbackPass_eq_candidates]
  rfl

/-- C2: when the exact-match pass finds nothing (and the strategy has
at least one active mapping), the default fallback order is
`[large, medium, small]`, every fallback candidate carries
`fallback_used = true`, with `fallback_enabled` the first candidate in
fallback scan order (providers ascending by priority, tiers in the
configured fallback order, first tier model present in the provider
catalog) is returned, and with fallback disabled or no candidate at all
the call fails with the no-suitable-model error. -/
theorem resolver_fallback_pass (db : List Provider)
    (strategies : List ModelStrategy) (req : ModelMappingRequest)
    (strategy : ModelStrategy) (rest : List ModelStrategy)
    (hty : req.strategy_type = "anthropic")
    (hs : getStrategies strategies (some req.strategy_type) = strategy :: rest)
    (hmaps : (activeMappingsByPriority strategy).isEmpty = false)
    (hexact : exactScanCandidates db strategy req = []) :
    (strategy.fallback_order = none →
      effectiveFallbackOrder strategy = ["large", "medium", "small"])
    ∧ (∀ r ∈ fallbackScanCandidates db strategy, r.fallback_used = true)
    ∧ (∀ r crest, strategy.fallback_enabled = true →
        fallbackScanCandidates db strategy = r :: crest →
        mapModel db strategies req = .ok r)
    ∧ ((strategy.fallback_enabled = false ∨ fallbackScanCandidates db strategy = []) →
        mapModel db strategies req =
          .error ("No suitable model found for: " ++ req.requested_model)) := by
  have hbase := mapAnthropicModel_of_no_exact db strategy req hmaps hexact
  have hmm := mapModel_anthropic db strategies req strategy rest hty hs
  refine ⟨?_, fallbackScanCandidates_fallback_used db strategy, ?_, ?_⟩
  · intro ho
    rw [effectiveFallbackOrder, ho]
  · intro r crest hen hcand
    rw [hmm, hbase, if_pos hen, hcand]
    rfl
  · intro hdis
    rcases hdis with hdis | hdis
    · rw [hmm, hbase, if_neg (by rw [hdis]; exact Bool.false_ne_true)]
    · rw [hmm, hbase, hdis]
      cases hen : strategy.fallback_enabled <;> simp

/-- Witness for C2: requesting an unconfigured model against
`wStrategy` falls back to the first large-tier model present in the
provider catalog, with `fallback_used = true`. -/
theorem resolver_fallback_pass_witness :
    mapModel [wProvider] [wStrategy]
        { requested_model := "claude-3-opus", strategy_type := "anthropic",
          preferred_tier := none } =
      .ok { mapped_model := "m-large", provider_id := 1, provider_name := "p1",
            tier_used := "large", fallback_used := true,
            available_models := ["m-large"] } :=
  ((resolver_fallback_pass [wProvider] [wStrategy]
      { requested_model := "claude-3-opus", strategy_type := "anthropic",
        preferred_tier := none }
      wStrategy [] rfl (by decide) (by decide) (by decide)).2.2.1)
    _ [] rfl (by decide)

/-! ### Strategy lookup (C9)

`get_strategies` filters only by `strategy_type`; the `is_active` column
of a strategy is never consulted by `map_model`. -/

theorem isPrefixOf_append_ne : ∀ (l1 l2 x y : List Char),
    l1.isPrefixOf l2 = false → l2.isPrefixOf l1 = false → l1 ++ x ≠ l2 ++ y := by
  intro l1
  induction l1 with
  | nil =>
    intro l2 x y h1 _
    simp [List.isPrefixOf] at h1
  | cons c1 t1 ih =>
    intro l2 x y h1 h2
    cases l2 with
    | nil => simp [List.isPrefixOf] at h2
    | cons c2 t2 =>
      simp only [List.isPrefixOf] at h1 h2
      rw [Bool.and_eq_false_iff] at h1 h2
      intro heq
      simp only [List.cons_append, List.cons.injEq] at heq
      obtain ⟨hc, ht⟩ := heq
      rcases h1 with h1 | h1
      · rw [hc] at h1
        simp at h1
      · rcases h2 with h2 | h2
        · rw [hc] at h2
          simp at h2
        · exact ih t2 x y h1 h2 ht

/-- Two string concatenations with incomparable constant heads are
never equal, whatever the tails. -/
theorem string_append_ne (p q a b : String)
    (h1 : p.data.isPrefixOf q.data = false)
    (h2 : q.data.isPrefixOf p.data = false) : p ++ a ≠ q ++ b := by
  intro h
  have hd : p.data ++ a.data = q.data ++ b.data := by
    have := congrArg String.data h
    simpa using this
  exact isPrefixOf_append_ne p.data q.data a.data b.data h1 h2 hd

/-- Every `ValueError` raised by `_map_anthropic_model` is either the
no-active-providers message or the no-suitable-model message. -/
theorem mapAnthropicModel_error_shape (db : List Provider)
    (strategy : ModelStrategy) (req : ModelMappingRequest) (e : String)
    (h : mapAnthropicModel db strategy req = .error e) :
    e = "No active providers found for strategy: " ++ strategy.name
    ∨ e = "No suitable model found for: " ++ req.requested_model := by
  simp only [mapAnthropicModel] at h
  split at h
  · injection h with h
    exact .inl h.symm
  · split at h
    · cases h
    · split at h
      · split at h
        · cases h
        · injection h with h
          exact .inr h.symm
      · injection h with h
        exact .inr h.symm

/-- Every `ValueError` raised by `_map_openai_model` is either the
no-active-providers message or the no-suitable-model message. -/
theorem mapOpenaiModel_error_shape (db : List Provider)
    (strategy : ModelStrategy) (req : ModelMappingRequest) (e : String)
    (h : mapOpenaiModel db strategy req = .error e) :
    e = "No active providers found for strategy: " ++ strategy.name
    ∨ e = "No suitable model found for: " ++ req.requested_model := by
  simp only [mapOpenaiModel] at h
  split at h
  · injection h with h
    exact .inl h.symm
  · split at h
    · cases h
    · split at h
      · split at h
        · cases h
        · injection h with h
          exact .inr h.symm
      · injection h with h
        exact .inr h.symm

/-- An anthropic strategy whose `is_active` column is false. -/
def wInactiveStrategy : ModelStrategy :=
  { name := "s1"
    strategy_type := "anthropic"
    fallback_enabled := true
    fallback_order := none
    is_active := false
    provider_mappings := [] }

/-- Counterexample to C9 as stated: with a single strategy of the
requested type that is inactive (and no active one), `map_model` does
not raise the no-strategy-found error; it selects the inactive strategy
and fails later with the no-active-providers error. -/
theorem strategy_lookup_counterexample :
    wInactiveStrategy.is_active = false
    ∧ mapModel [] [wInactiveStrategy]
        { requested_model := "m", strategy_type := "anthropic",
          preferred_tier := none } =
      .error "No active providers found for strategy: s1"
    ∧ ("No active providers found for strategy: s1"
        ≠ "No strategies found for type: anthropic") := by
  refine ⟨rfl, rfl, ?_⟩
  decide

/-- C9 amended: `map_model` fails with the no-strategy-found error
exactly when no strategy of the requested type exists at all — the
strategies' `is_active` flag plays no part in the lookup. -/
theorem strategy_lookup_no_strategy_error (db : List Provider)
    (strategies : List ModelStrategy) (req : ModelMappingRequest)
    (hty : req.strategy_type = "anthropic" ∨ req.strategy_type = "openai") :
    mapModel db strategies req =
        .error ("No strategies found for type: " ++ req.strategy_type)
    ↔ strategies.filter (fun s => s.strategy_type == req.strategy_type) = [] := by
  have hne : (req.strategy_type != "") = true := by
    rcases hty with h | h <;> rw [h] <;> rfl
  have hget : getStrategies strategies (some req.strategy_type) =
      strategies.filter (fun s => s.strategy_type == req.strategy_type) := by
    simp only [getStrategies, hne, if_true]
  constructor
  · intro h
    cases hf : strategies.filter (fun s => s.strategy_type == req.strategy_type) with
    | nil => rfl
    | cons strategy rest =>
      exfalso
      rw [mapModel, hget, hf] at h
      dsimp only at h
      have hshape :
          "No strategies found for type: " ++ req.strategy_type
            = "No active providers found for strategy: " ++ strategy.name
          ∨ "No strategies found for type: " ++ req.strategy_type
            = "No suitable model found for: " ++ req.requested_model := by
        rcases hty with hty | hty
        · rw [hty] at h ⊢
          rw [if_pos (by decide : (("anthropic" : String) == "anthropic") = true)] at h
          exact mapAnthropicModel_error_shape db strategy req _ h
        · rw [hty] at h ⊢
          rw [if_neg (by decide : ¬ ((("openai" : String) == "anthropic") = true)),
            if_pos (by decide : (("openai" : String) == "openai") = true)] at h
          exact mapOpenaiModel_error_shape db strategy req _ h
      rcases hshape with hbad | hbad
      · exact string_append_ne "No strategies found for type: "
          "No active providers found for strategy: " _ _
          (by decide) (by decide) hbad
      · exact string_append_ne "No strategies found for type: "
          "No suitable model found for: " _ _
          (by decide) (by decide) hbad
  · intro h
    rw [mapModel, hget, h]

/-- Witness for the amended C9: with no strategy at all, `map_model`
raises exactly the no-strategy-found error. -/
theorem strategy_lookup_no_strategy_error_witness :
    mapModel [] []
        { requested_model := "m", strategy_type := "anthropic",
          preferred_tier := none } =
      .error ("No strategies found for type: " ++ "anthropic") :=
  (strategy_lookup_no_strategy_error [] []
    { requested_model := "m", strategy_type := "anthropic",
      preferred_tier := none } (.inl rfl)).mpr rfl

/-! ## Provider gateway (app/services/provider_service.py)

The outbound HTTP POST is abstracted as an oracle
`httpPost : Provider → List (String × String) → R → HttpOutcome`
supplied to the gateway functions; the request body type `R` is a type
parameter (the gateway only threads it through). -/

/-- The outcome of the outbound HTTP POST: a status code with decoded
body and raw text, or a raised exception (timeout, connection failure)
carrying its message. -/
inductive HttpOutcome where
  | response (status : Nat) (body : JVal) (text : String)
  | exn (msg : String)

/-- The value `call_provider_api` returns: in streaming mode the dict
`{"stream": True, "provider": ..., "headers": ..., "request_data": ...}`
(provider_service.py line 66), otherwise the provider's decoded JSON
body. -/
inductive ProviderCallResult (R : Type) where
  | streamInfo (provider : Provider) (headers : List (String × String))
      (request_data : R)
  | json (body : JVal)

/-- Python `dict.update`: keys already present keep their position and
take the new value, new keys are appended in order. -/
def dictUpdate (base extra : List (String × String)) : List (String × String) :=
  base.map (fun kv =>
    match extra.find? (fun e => e.1 == kv.1) with
    | some e => (kv.1, e.2)
    | none => kv)
  ++ extra.filter (fun e => (base.find? (fun kv => kv.1 == e.1)).isNone)

/-- The headers built at provider_service.py lines 40-46: content type
and bearer auth, updated with the provider's configured extra headers. -/
def buildHeaders (provider : Provider) : List (String × String) :=
  dictUpdate
    [("Content-Type", "application/json"),
     ("Authorization", "Bearer " ++ provider.api_key)]
    provider.headers

/-- `ProviderService.call_provider_api` (provider_service.py lines
36-96): in streaming mode no HTTP request is issued and the stream-info
dict is returned unconditionally; otherwise one POST is made and a
non-200 status raises. The raised message is not line 85's formatted
`Provider returned status ...` text: line 82 first runs
`error_text = await response.text()`, and `httpx.Response.text` is a
`str` property (this repo reads it correctly as `response.text` at
providers.py line 577), so calling it raises
a TypeError reading `str object is not callable` and line 85 is
unreachable — the exception carries that constant text, independent of
the provider, the status code and the response body. On status 200 the
decoded JSON body is returned. -/
def call_provider_api {R : Type}
    (httpPost : Provider → List (String × String) → R → HttpOutcome)
    (provider : Provider) (request : R) (stream : Bool) :
    Except String (ProviderCallResult R) :=
  let headers := buildHeaders provider
  if stream then
    .ok (.streamInfo provider headers request)
  else
    match httpPost provider headers request with
    | .exn msg => .error msg
    | .response status body _text =>
      if status != 200 then
        .error "\x27str\x27 object is not callable"
      else
        .ok (.json body)

/-- `ProviderService.get_active_providers` (provider_service.py lines
20-27): the active providers ordered ascending by name. -/
def get_active_providers (db : List Provider) : List Provider :=
  pySortBy (fun a b => strLt a.name b.name) (db.filter (fun p => p.is_active))

/-- Python `str(last_error)`: `"None"` before any failure, else the
stored exception message. -/
def lastErrorText : Option String → String
  | none => "None"
  | some e => e

/-- The `for provider in providers` loop of
`try_providers_until_success` (provider_service.py lines 109-138),
threading `last_error`. Besides the Python return value, the second
component records the providers attempted, in order, as a ghost
observation of the loop. -/
def tryLoop {R : Type}
    (httpPost : Provider → List (String × String) → R → HttpOutcome)
    (request : R) (stream : Bool) :
    List Provider → Option String →
      Except String (ProviderCallResult R) × List Provider
  | [], last_error =>
    (.error ("All providers failed. Last error: " ++ lastErrorText last_error), [])
  | p :: ps, _last_error =>
    match call_provider_api httpPost p request stream with
    | .ok r => (.ok r, [p])
    | .error e =>
      ((tryLoop httpPost request stream ps (some e)).1,
        p :: (tryLoop httpPost request stream ps (some e)).2)

/-- `ProviderService.try_providers_until_success` (provider_service.py
lines 98-138), with the attempted-provider trace as second component. -/
def try_providers_until_success {R : Type}
    (httpPost : Provider → List (String × String) → R → HttpOutcome)
    (db : List Provider) (request : R) (stream : Bool) :
    Except String (ProviderCallResult R) × List Provider :=
  let providers := get_active_providers db
  if providers.isEmpty then (.error "No active providers available", [])
  else tryLoop httpPost request stream providers none

theorem tryLoop_all_fail {R : Type}
    (httpPost : Provider → List (String × String) → R → HttpOutcome)
    (request : R) (stream : Bool) :
    ∀ (front : List Provider) (plast : Provider) (le : Option String)
      (elast : String),
      call_provider_api httpPost plast request stream = .error elast →
      (∀ p ∈ front, (call_provider_api httpPost p request stream).isOk = false) →
      tryLoop httpPost request stream (front ++ [plast]) le =
        (.error ("All providers failed. Last error: " ++ elast),
          front ++ [plast]) := by
  intro front
  induction front with
  | nil =>
    intro plast le elast herr _
    rw [List.nil_append, tryLoop, herr]
    dsimp only
    rw [tryLoop]
    rfl
  | cons q front ih =>
    intro plast le elast herr hfail
    have hq : (call_provider_api httpPost q request stream).isOk = false :=
      hfail q (List.mem_cons_self q front)
    cases hcall : call_provider_api httpPost q request stream with
    | ok r => rw [hcall] at hq; cases hq
    | error e =>
      rw [List.cons_append, tryLoop, hcall]
      dsimp only
      rw [ih plast (some e) elast herr
        (fun x hx => hfail x (List.mem_cons_of_mem q hx))]

theorem tryLoop_first_success {R : Type}
    (httpPost : Provider → List (String × String) → R → HttpOutcome)
    (request : R) (stream : Bool) :
    ∀ (front : List Provider) (p : Provider) (back : List Provider)
      (r : ProviderCallResult R) (le : Option String),
      (∀ q ∈ front, (call_provider_api httpPost q request stream).isOk = false) →
      call_provider_api httpPost p request stream = .ok r →
      tryLoop httpPost request stream (front ++ p :: back) le =
        (.ok r, front ++ [p]) := by
  intro front
  induction front with
  | nil =>
    intro p back r le _ hok
    rw [List.nil_append, tryLoop, hok]
    rfl
  | cons q front ih =>
    intro p back r le hfail hok
    have hq : (call_provider_api httpPost q request stream).isOk = false :=
      hfail q (List.mem_cons_self q front)
    cases hcall : call_provider_api httpPost q request stream with
    | ok s => rw [hcall] at hq; cases hq
    | error e =>
      rw [List.cons_append, tryLoop, hcall]
      dsimp only
      rw [ih p back r (some e)
        (fun x hx => hfail x (List.mem_cons_of_mem q hx)) hok]
      rfl

/-- C4: `try_providers_until_success` walks the active providers in
order; every failing call advances to the next candidate, the first
successful call is returned at once (the attempted prefix being exactly
the failing front plus the succeeding provider), and only when every
provider has failed does it raise, wrapping the last stored error. The
last conjunct exhibits the divergence from the claimed message: on any
non-200 response the error `call_provider_api` raises is the constant
TypeError text of line 82 — the same for every provider, status code
and response body — so the final message never references the failing
provider; the provider-specific message of line 85 is unreachable. -/
theorem provider_retry_loop {R : Type}
    (httpPost : Provider → List (String × String) → R → HttpOutcome)
    (request : R) (stream : Bool) (db : List Provider) :
    (∀ front plast elast,
        get_active_providers db = front ++ [plast] →
        (∀ p ∈ front ++ [plast],
          (call_provider_api httpPost p request stream).isOk = false) →
        call_provider_api httpPost plast request stream = .error elast →
        try_providers_until_success httpPost db request stream =
          (.error ("All providers failed. Last error: " ++ elast),
            front ++ [plast]))
    ∧ (∀ front p back r,
        get_active_providers db = front ++ p :: back →
        (∀ q ∈ front, (call_provider_api httpPost q request stream).isOk = false) →
        call_provider_api httpPost p request stream = .ok r →
        try_providers_until_success httpPost db request stream =
          (.ok r, front ++ [p]))
    ∧ (∀ (provider : Provider) (status : Nat) (body : JVal) (text : String),
        httpPost provider (buildHeaders provider) request =
          .response status body text →
        status ≠ 200 →
        call_provider_api httpPost provider request false =
          .error "\x27str\x27 object is not callable") := by
  refine ⟨?_, ?_, ?_⟩
  · intro front plast elast hsplit hfail herr
    have hne : (get_active_providers db).isEmpty = false := by
      rw [hsplit]
      cases front <;> rfl
    rw [try_providers_until_success]
    rw [hne, hsplit]
    exact tryLoop_all_fail httpPost request stream front plast none elast herr
      (fun p hp => hfail p (List.mem_append_left [plast] hp))
  · intro front p back r hsplit hfail hok
    have hne : (get_active_providers db).isEmpty = false := by
      rw [hsplit]
      cases front <;> rfl
    rw [try_providers_until_success]
    rw [hne, hsplit]
    exact tryLoop_first_success httpPost request stream front p back r none hfail hok
  · intro provider status body text hresp hs
    have hne200 : (status != 200) = true := by simpa [bne_iff_ne] using hs
    rw [show call_provider_api httpPost provider request false =
        (match httpPost provider (buildHeaders provider) request with
         | .exn msg => .error msg
         | .response status body _text =>
           if status != 200 then
             .error "\x27str\x27 object is not callable"
           else .ok (.json body)) from rfl, hresp]
    dsimp only
    rw [if_pos hne200]

/-- Second witness provider, alphabetically after `wProvider`. -/
def wProviderB : Provider :=
  { id := 2
    name := "p2"
    base_url := "https://p2.example"
    api_key := "k2"
    model_list := []
    headers := []
    medium_model := none
    verify_ssl := true
    is_active := true }

/-- An HTTP oracle on which every provider answers status 500 with a
provider-specific error text. -/
def wFailingPost : Provider → List (String × String) → Unit → HttpOutcome :=
  fun p _ _ => .response 500 .null ("boom-" ++ p.name)

/-- Witness for C4: with exactly two providers both answering HTTP 500
with distinct, provider-specific error bodies, exactly two attempts are
made in name order, and the raised message wraps the constant TypeError
text — both per-provider errors are identical and neither the second
provider's status code nor its error body appears in the message. -/
theorem provider_retry_loop_witness :
    try_providers_until_success wFailingPost [wProviderB, wProvider] () false =
      (.error ("All providers failed. Last error: "
          ++ "\x27str\x27 object is not callable"),
        [wProvider] ++ [wProviderB])
    ∧ call_provider_api wFailingPost wProvider () false =
        .error "\x27str\x27 object is not callable"
    ∧ call_provider_api wFailingPost wProviderB () false =
        .error "\x27str\x27 object is not callable" :=
  ⟨(provider_retry_loop wFailingPost () false [wProviderB, wProvider]).1
      [wProvider] wProviderB "\x27str\x27 object is not callable"
      (by decide) (by decide) rfl,
    (provider_retry_loop wFailingPost () false [wProviderB, wProvider]).2.2
      wProvider 500 .null "boom-p1" rfl (by decide),
    (provider_retry_loop wFailingPost () false [wProviderB, wProvider]).2.2
      wProviderB 500 .null "boom-p2" rfl (by decide)⟩

/-- C10: with `stream=true`, `call_provider_api` never consults the
HTTP oracle — it returns the stream-info dict unconditionally — so
`try_providers_until_success` succeeds on the very first active provider
(the active providers being sorted ascending by name: no later
provider's name compares lexicographically below an earlier one), makes
exactly one attempt, and never reaches the all-providers-failed error. -/
theorem streaming_call_no_http {R : Type} (request : R) (db : List Provider) :
    (∀ (httpPost httpPost2 : Provider → List (String × String) → R → HttpOutcome)
        (provider : Provider),
      call_provider_api httpPost provider request true =
        .ok (.streamInfo provider (buildHeaders provider) request)
      ∧ call_provider_api httpPost provider request true =
          call_provider_api httpPost2 provider request true)
    ∧ (∀ (httpPost : Provider → List (String × String) → R → HttpOutcome)
        (hd : Provider) (tl : List Provider),
        get_active_providers db = hd :: tl →
        try_providers_until_success httpPost db request true =
          (.ok (.streamInfo hd (buildHeaders hd) request), [hd]))
    ∧ (get_active_providers db).Sorted
        (fun a b => strLt b.name a.name = false) := by
  refine ⟨fun _ _ _ => ⟨rfl, rfl⟩, ?_, ?_⟩
  · intro httpPost hd tl hsplit
    have hne : (get_active_providers db).isEmpty = false := by
      rw [hsplit]; rfl
    rw [try_providers_until_success, hne, hsplit, tryLoop]
    rfl
  · exact pySortBy_sorted _
      (fun a b h => charListLt_asymm a.name.data b.name.data h)
      (fun a b c h1 h2 => charListLt_le_trans a.name.data b.name.data c.name.data h1 h2)
      _

/-- Witness for C10: with two active providers and an always-failing
oracle, the streaming call still succeeds on the first provider in name
order, with exactly one attempt. -/
theorem streaming_call_no_http_witness :
    try_providers_until_success wFailingPost [wProviderB, wProvider] () true =
      (.ok (.streamInfo wProvider (buildHeaders wProvider) ()), [wProvider]) :=
  (streaming_call_no_http () [wProviderB, wProvider]).2.1 wFailingPost
    wProvider [wProviderB] (by decide)


/-! ## json.loads (model)

A recursive-descent parser for the JSON fragment this service
exchanges: strings, integers, booleans, null, arrays and objects (no
floats, no unicode escapes, duplicate object keys not modelled). Fuel
bounds the recursion; `json_loads` supplies enough fuel for its input. -/

/-- Skip JSON insignificant whitespace. -/
def skipWs : List Char → List Char
  | c :: cs =>
    if c = ' ' ∨ c = '\t' ∨ c = '\n' ∨ c = '\r' then skipWs cs else c :: cs
  | [] => []

/-- Parse the remainder of a JSON string after its opening quote,
returning the string contents and the input after the closing quote. -/
def parseJStringAux : List Char → Option (List Char × List Char)
  | [] => none
  | '"' :: rest => some ([], rest)
  | '\\' :: c :: rest =>
    match
      (match c with
       | '"' => some '"'
       | '\\' => some '\\'
       | '/' => some '/'
       | 'n' => some '\n'
       | 't' => some '\t'
       | 'r' => some '\r'
       | _ => none) with
    | none => none
    | some d =>
      match parseJStringAux rest with
      | none => none
      | some (s, r) => some (d :: s, r)
  | '\\' :: [] => none
  | c :: rest =>
    match parseJStringAux rest with
    | none => none
    | some (s, r) => some (c :: s, r)

/-- Decimal digits to a natural number. -/
def digitsToNat (ds : List Char) : Nat :=
  ds.foldl (fun n c => n * 10 + (c.toNat - 48)) 0

/-- Parse a JSON integer (optional minus sign, then digits). -/
def parseJNumber (cs : List Char) : Option (Int × List Char) :=
  match cs with
  | '-' :: cs2 =>
    match cs2.span (fun c => c.isDigit) with
    | ([], _) => none
    | (ds, rest) => some (-(digitsToNat ds : Int), rest)
  | _ =>
    match cs.span (fun c => c.isDigit) with
    | ([], _) => none
    | (ds, rest) => some ((digitsToNat ds : Int), rest)

mutual

/-- Parse one JSON value, returning it and the unconsumed input. -/
def parseVal : Nat → List Char → Option (JVal × List Char)
  | 0, _ => none
  | fuel + 1, cs =>
    match skipWs cs with
    | 'n' :: 'u' :: 'l' :: 'l' :: rest => some (.null, rest)
    | 't' :: 'r' :: 'u' :: 'e' :: rest => some (.bool true, rest)
    | 'f' :: 'a' :: 'l' :: 's' :: 'e' :: rest => some (.bool false, rest)
    | '"' :: rest =>
      match parseJStringAux rest with
      | none => none
      | some (s, r) => some (.str ⟨s⟩, r)
    | '[' :: rest =>
      match skipWs rest with
      | ']' :: r => some (.arr [], r)
      | cs2 => parseArrElems fuel cs2 []
    | '{' :: rest =>
      match skipWs rest with
      | '}' :: r => some (.obj [], r)
      | cs2 => parseObjFields fuel cs2 []
    | cs2 =>
      match parseJNumber cs2 with
      | none => none
      | some (n, r) => some (.num n, r)

/-- Parse the elements of a non-empty JSON array. -/
def parseArrElems : Nat → List Char → List JVal → Option (JVal × List Char)
  | 0, _, _ => none
  | fuel + 1, cs, acc =>
    match parseVal fuel cs with
    | none => none
    | some (v, rest) =>
      match skipWs rest with
      | ',' :: r2 => parseArrElems fuel r2 (acc ++ [v])
      | ']' :: r2 => some (.arr (acc ++ [v]), r2)
      | _ => none

/-- Parse the fields of a non-empty JSON object. -/
def parseObjFields : Nat → List Char → List (String × JVal) →
    Option (JVal × List Char)
  | 0, _, _ => none
  | fuel + 1, cs, acc =>
    match skipWs cs with
    | '"' :: rest =>
      match parseJStringAux rest with
      | none => none
      | some (k, r1) =>
        match skipWs r1 with
        | ':' :: r2 =>
          match parseVal fuel r2 with
          | none => none
          | some (v, r3) =>
            match skipWs r3 with
            | ',' :: r4 => parseObjFields fuel r4 (acc ++ [(⟨k⟩, v)])
            | '}' :: r4 => some (.obj (acc ++ [(⟨k⟩, v)]), r4)
            | _ => none
        | _ => none
    | _ => none

end

/-- Python `json.loads` on the modelled JSON fragment: parse one value
and require only whitespace to remain; `none` models a raised
`json.JSONDecodeError`. -/
def json_loads (s : String) : Option JVal :=
  match parseVal (s.data.length + 1) s.data with
  | some (v, rest) => if (skipWs rest).isEmpty then some v else none
  | none => none

/-! ## Anthropic streaming re-emitter
(app/api/v1/anthropic.py, `generate_anthropic_stream`, lines 132-194)

The upstream byte stream is modelled as the list of text chunks
`response.aiter_text()` yields; each emitted Anthropic SSE event is one
constructor of `AnthEvent` (the serialized `event:`/`data:` text of each
yield carries exactly these fields). The exception path (an upstream
connection error becoming one `error` SSE event) is outside this pure
model, whose input is the already-read chunk list. -/

/-- One emitted Anthropic SSE event. -/
inductive AnthEvent where
  | message_start (model : String)
  | content_block_start
  | content_block_delta (text : JVal)
  | message_delta (stop_reason : String) (input_tokens output_tokens : JVal)
  | message_stop

/-- Is this event a `content_block_start`? -/
def AnthEvent.isStart : AnthEvent → Bool
  | .content_block_start => true
  | _ => false

/-- Is this event a `content_block_delta`? -/
def AnthEvent.isDelta : AnthEvent → Bool
  | .content_block_delta _ => true
  | _ => false

/-- Python `s.startswith(pre)` (by code point). -/
def pyStartsWith (s pre : String) : Bool :=
  pre.data.isPrefixOf s.data

/-- Python `s[n:]` (by code point). -/
def pyDrop (s : String) (n : Nat) : String :=
  ⟨s.data.drop n⟩

/-- Lines 165-172: the `content` branch of one parsed chunk. Returns
the new `message_started` flag and the events emitted. -/
def contentEvents (message_started : Bool) (delta : JVal) : Bool × List AnthEvent :=
  match objGet delta "content" with
  | none => (message_started, [])
  | some v =>
    if jtruthy v then
      if message_started then (true, [.content_block_delta v])
      else (true, [.content_block_start, .content_block_delta v])
    else (message_started, [])

/-- Lines 174-183: the `usage` branch of one parsed chunk. -/
def usageEvents (parsed choice : JVal) : List AnthEvent :=
  if jtruthy (objGetD parsed "usage" .null) then
    let usage := objGetD parsed "usage" .null
    let finish_reason :=
      match objGet choice "finish_reason" with
      | some (.str s) =>
        if s != "" then (map_openai_finish_reason_to_anthropic s).value
        else "end_turn"
      | _ => "end_turn"
    [.message_delta finish_reason
      (objGetD usage "prompt_tokens" (.num 0))
      (objGetD usage "completion_tokens" (.num 0))]
  else []

/-- Lines 150-185: processing of one upstream text chunk. Returns the
new `message_started` flag, whether the loop breaks (`[DONE]` seen), and
the events emitted for this chunk. Whitespace-only chunks are skipped;
a chunk is stripped of one `data: ` prefix and JSON-decoded whole (there
is no reassembly buffer); a decode failure skips the chunk. -/
def processAnthropicChunk (message_started : Bool) (chunk : String) :
    Bool × Bool × List AnthEvent :=
  if pyStrip chunk != "" then
    let data := if pyStartsWith chunk "data: " then pyStrip (pyDrop chunk 6)
                else chunk
    if pyStrip data == "[DONE]" then (message_started, true, [.message_stop])
    else
      match json_loads data with
      | none => (message_started, false, [])
      | some parsed =>
        match objGet parsed "choices" with
        | some (.arr (choice :: _)) =>
          let delta := objGetD choice "delta" (.obj [])
          let ce := contentEvents message_started delta
          (ce.1, false, ce.2 ++ usageEvents parsed choice)
        | _ => (message_started, false, [])
  else (message_started, false, [])

/-- The `async for` loop of `generate_anthropic_stream`: chunks are
processed in order, the loop breaks after `[DONE]`. -/
def goAnthropic (message_started : Bool) : List String → List AnthEvent
  | [] => []
  | c :: cs =>
    let step := processAnthropicChunk message_started c
    if step.2.1 then step.2.2 else step.2.2 ++ goAnthropic step.1 cs

/-- `generate_anthropic_stream`: the synthetic `message_start` event is
yielded before any upstream chunk is read, then the chunk loop runs. -/
def generate_anthropic_stream (model : String) (chunks : List String) :
    List AnthEvent :=
  .message_start model :: goAnthropic false chunks

/-- Shape of one chunk's output: either the flag is unchanged and the
chunk emits no `content_block_start` and no `content_block_delta`
(nothing, `message_stop`, or one `message_delta`), or the flag ends
true and the events are a delta — prefixed by the one
`content_block_start` exactly when the flag was false — followed by a
start-free delta-free tail. -/
theorem processChunk_shape (started : Bool) (c : String) :
    ((processAnthropicChunk started c).1 = started
      ∧ ((processAnthropicChunk started c).2.2).countP AnthEvent.isStart = 0
      ∧ ((processAnthropicChunk started c).2.2).countP AnthEvent.isDelta = 0)
    ∨ ((processAnthropicChunk started c).1 = true
      ∧ (processAnthropicChunk started c).2.1 = false
      ∧ ∃ v u, u.countP AnthEvent.isStart = 0 ∧ u.countP AnthEvent.isDelta = 0
        ∧ (processAnthropicChunk started c).2.2 =
            (if started then [AnthEvent.content_block_delta v]
             else [AnthEvent.content_block_start, AnthEvent.content_block_delta v]) ++ u) := by
  rw [processAnthropicChunk]
  by_cases h1 : (pyStrip c != "") = true
  · rw [if_pos h1]
    by_cases h2 : (pyStrip (if pyStartsWith c "data: " then pyStrip (pyDrop c 6) else c)
        == "[DONE]") = true
    · rw [if_pos h2]
      left
      exact ⟨rfl, rfl, rfl⟩
    · rw [if_neg h2]
      cases hjson : json_loads (if pyStartsWith c "data: " then pyStrip (pyDrop c 6) else c) with
      | none => left; exact ⟨rfl, rfl, rfl⟩
      | some parsed =>
        dsimp only
        cases hch : objGet parsed "choices" with
        | none => left; exact ⟨rfl, rfl, rfl⟩
        | some cv =>
          cases cv with
          | arr elems =>
            cases elems with
            | nil => left; exact ⟨rfl, rfl, rfl⟩
            | cons choice rest =>
              dsimp only
              have husage : (usageEvents parsed choice).countP AnthEvent.isStart = 0
                  ∧ (usageEvents parsed choice).countP AnthEvent.isDelta = 0 := by
                rw [usageEvents]
                by_cases hu : jtruthy (objGetD parsed "usage" .null) = true
                · rw [if_pos hu]; exact ⟨rfl, rfl⟩
                · rw [if_neg hu]; exact ⟨rfl, rfl⟩
              rw [contentEvents]
              cases hco : objGet (objGetD choice "delta" (.obj [])) "content" with
              | none =>
                left
                refine ⟨rfl, ?_, ?_⟩
                · simpa using husage.1
                · simpa using husage.2
              | some v =>
                dsimp only
                by_cases hv : jtruthy v = true
                · rw [if_pos hv]
                  cases started with
                  | true =>
                    right
                    refine ⟨rfl, rfl, v, usageEvents parsed choice,
                      husage.1, husage.2, ?_⟩
                    rfl
                  | false =>
                    right
                    refine ⟨rfl, rfl, v, usageEvents parsed choice,
                      husage.1, husage.2, ?_⟩
                    rfl
                · rw [if_neg hv]
                  left
                  refine ⟨rfl, ?_, ?_⟩
                  · simpa using husage.1
                  · simpa using husage.2
          | null => left; exact ⟨rfl, rfl, rfl⟩
          | bool b => left; exact ⟨rfl, rfl, rfl⟩
          | num n => left; exact ⟨rfl, rfl, rfl⟩
          | str s => left; exact ⟨rfl, rfl, rfl⟩
          | obj fields => left; exact ⟨rfl, rfl, rfl⟩
  · rw [if_neg h1]
    left
    exact ⟨rfl, rfl, rfl⟩

/-- Checks that no `content_block_delta` occurs before the first
`content_block_start`. -/
def noDeltaBeforeStart : List AnthEvent → Bool
  | [] => true
  | .content_block_start :: _ => true
  | .content_block_delta _ :: _ => false
  | _ :: rest => noDeltaBeforeStart rest

/-- Checks that every `content_block_start` is immediately followed by
a `content_block_delta`. -/
def startsFollowed : List AnthEvent → Bool
  | [] => true
  | .content_block_start :: rest =>
    (match rest with
     | .content_block_delta _ :: rest2 => startsFollowed rest2
     | _ => false)
  | _ :: rest => startsFollowed rest

theorem noDeltaBeforeStart_append (xs ys : List AnthEvent)
    (hs : xs.countP AnthEvent.isStart = 0) (hd : xs.countP AnthEvent.isDelta = 0) :
    noDeltaBeforeStart (xs ++ ys) = noDeltaBeforeStart ys := by
  induction xs with
  | nil => rfl
  | cons e xs ih =>
    rw [List.countP_cons] at hs hd
    cases e with
    | content_block_start => simp [AnthEvent.isStart] at hs
    | content_block_delta v => simp [AnthEvent.isDelta] at hd
    | message_start m => exact ih (by omega) (by omega)
    | message_delta fr i o => exact ih (by omega) (by omega)
    | message_stop => exact ih (by omega) (by omega)

theorem startsFollowed_append (xs ys : List AnthEvent)
    (hs : xs.countP AnthEvent.isStart = 0) :
    startsFollowed (xs ++ ys) = startsFollowed ys := by
  induction xs with
  | nil => rfl
  | cons e xs ih =>
    rw [List.countP_cons] at hs
    cases e with
    | content_block_start => simp [AnthEvent.isStart] at hs
    | content_block_delta v => exact ih (by omega)
    | message_start m => exact ih (by omega)
    | message_delta fr i o => exact ih (by omega)
    | message_stop => exact ih (by omega)

theorem goAnthropic_start_count :
    ∀ (chunks : List String) (started : Bool),
      (goAnthropic started chunks).countP AnthEvent.isStart ≤
        (if started = true then 0 else 1) := by
  intro chunks
  induction chunks with
  | nil => intro started; cases started <;> simp [goAnthropic]
  | cons c cs ih =>
    intro started
    rw [goAnthropic]
    rcases processChunk_shape started c with ⟨hs, hcs, _⟩ |
        ⟨hs, hstop, v, u, hu1, _, hevs⟩
    · by_cases hb : (processAnthropicChunk started c).2.1 = true
      · rw [if_pos hb, hcs]
        cases started <;> simp
      · rw [if_neg hb, List.countP_append, hcs, hs]
        simpa using ih started
    · rw [if_neg (by simp [hstop]), hs]
      have hrec := ih true
      rw [if_pos rfl] at hrec
      cases started with
      | true =>
        rw [if_pos rfl] at hevs
        have h1 : ((processAnthropicChunk true c).2.2).countP AnthEvent.isStart = 0 := by
          rw [hevs, List.countP_append, hu1]
          rfl
        rw [if_pos rfl, List.countP_append, h1]
        simpa using hrec
      | false =>
        rw [if_neg (by simp)] at hevs
        have h1 : ((processAnthropicChunk false c).2.2).countP AnthEvent.isStart = 1 := by
          rw [hevs, List.countP_append, hu1]
          rfl
        rw [if_neg (by simp), List.countP_append, h1]
        omega

theorem goAnthropic_no_delta_before_start :
    ∀ chunks : List String,
      noDeltaBeforeStart (goAnthropic false chunks) = true := by
  intro chunks
  induction chunks with
  | nil => rfl
  | cons c cs ih =>
    rw [goAnthropic]
    rcases processChunk_shape false c with ⟨hs, hcs, hcd⟩ |
        ⟨hs, hstop, v, u, hu1, hu2, hevs⟩
    · by_cases hb : (processAnthropicChunk false c).2.1 = true
      · rw [if_pos hb]
        rw [← List.append_nil ((processAnthropicChunk false c).2.2)]
        rw [noDeltaBeforeStart_append _ _ hcs hcd]
        rfl
      · rw [if_neg hb, hs]
        rw [noDeltaBeforeStart_append _ _ hcs hcd]
        exact ih
    · rw [if_neg (by simp [hstop])]
      rw [if_neg (by simp)] at hevs
      rw [hevs]
      rfl

theorem goAnthropic_starts_followed :
    ∀ (chunks : List String) (started : Bool),
      startsFollowed (goAnthropic started chunks) = true := by
  intro chunks
  induction chunks with
  | nil => intro _; rfl
  | cons c cs ih =>
    intro started
    rw [goAnthropic]
    rcases processChunk_shape started c with ⟨hs, hcs, _⟩ |
        ⟨hs, hstop, v, u, hu1, _, hevs⟩
    · by_cases hb : (processAnthropicChunk started c).2.1 = true
      · rw [if_pos hb]
        rw [← List.append_nil ((processAnthropicChunk started c).2.2)]
        rw [startsFollowed_append _ _ hcs]
        rfl
      · rw [if_neg hb, hs]
        rw [startsFollowed_append _ _ hcs]
        exact ih started
    · rw [if_neg (by simp [hstop]), hs, hevs]
      cases started with
      | true =>
        rw [if_pos rfl]
        rw [startsFollowed_append _ _
          (by simp [List.countP_append, List.countP_cons, AnthEvent.isStart, hu1])]
        exact ih true
      | false =>
        rw [if_neg (by simp)]
        simp only [List.cons_append, List.nil_append]
        rw [show startsFollowed (.content_block_start :: .content_block_delta v ::
            (u ++ goAnthropic true cs)) =
            startsFollowed (u ++ goAnthropic true cs) from rfl]
        rw [startsFollowed_append _ _ hu1]
        exact ih true

theorem goAnthropic_start_zero_iff_delta_zero :
    ∀ chunks : List String,
      ((goAnthropic false chunks).countP AnthEvent.isStart = 0 ↔
        (goAnthropic false chunks).countP AnthEvent.isDelta = 0) := by
  intro chunks
  induction chunks with
  | nil => simp [goAnthropic]
  | cons c cs ih =>
    rw [goAnthropic]
    rcases processChunk_shape false c with ⟨hs, hcs, hcd⟩ |
        ⟨hs, hstop, v, u, hu1, hu2, hevs⟩
    · by_cases hb : (processAnthropicChunk false c).2.1 = true
      · rw [if_pos hb, hcs, hcd]
      · rw [if_neg hb, hs]
        rw [List.countP_append, List.countP_append, hcs, hcd]
        simpa using ih
    · rw [if_neg (by simp [hstop])]
      rw [if_neg (by simp)] at hevs
      rw [hevs]
      constructor <;> intro h <;>
        simp [List.countP_append, List.countP_cons, AnthEvent.isStart,
          AnthEvent.isDelta] at h

/-- C7: `message_start` is the head of every emitted stream and does
not depend on the upstream chunks; in the chunk-loop output at most one
`content_block_start` is emitted, no `content_block_delta` precedes it,
every `content_block_start` is immediately followed by a
`content_block_delta`, and a `content_block_start` is emitted exactly
when some `content_block_delta` is (i.e. on the first non-empty content
delta). -/
theorem streaming_event_ordering (model : String) (chunks : List String) :
    generate_anthropic_stream model chunks =
      .message_start model :: goAnthropic false chunks
    ∧ (generate_anthropic_stream model chunks).head? = some (.message_start model)
    ∧ (goAnthropic false chunks).countP AnthEvent.isStart ≤ 1
    ∧ noDeltaBeforeStart (goAnthropic false chunks) = true
    ∧ startsFollowed (goAnthropic false chunks) = true
    ∧ ((goAnthropic false chunks).countP AnthEvent.isStart = 0 ↔
        (goAnthropic false chunks).countP AnthEvent.isDelta = 0) :=
  ⟨rfl, rfl, by simpa using goAnthropic_start_count chunks false,
    goAnthropic_no_delta_before_start chunks,
    goAnthropic_starts_followed chunks false,
    goAnthropic_start_zero_iff_delta_zero chunks⟩

/-- Witness chunk: a well-formed OpenAI delta frame carrying content. -/
def wContentChunk : String :=
  "data: \x7b\"choices\": [\x7b\"delta\": \x7b\"content\": \"hi\"\x7d\x7d]\x7d\n\n"

/-- Witness chunk: a delta frame with an empty delta (no content). -/
def wEmptyDeltaChunk : String :=
  "data: \x7b\"choices\": [\x7b\"delta\": \x7b\x7d\x7d]\x7d\n\n"

/-- Witness for C7: on a concrete two-chunk stream the ordering
properties hold, and on a content-free stream the equivalence forces
zero `content_block_start` events. -/
theorem streaming_event_ordering_witness :
    (goAnthropic false [wContentChunk, wEmptyDeltaChunk]).countP
        AnthEvent.isStart ≤ 1
    ∧ startsFollowed (goAnthropic false [wContentChunk, wEmptyDeltaChunk]) = true
    ∧ (goAnthropic false [wEmptyDeltaChunk]).countP AnthEvent.isStart = 0 :=
  ⟨(streaming_event_ordering "m" [wContentChunk, wEmptyDeltaChunk]).2.2.1,
    (streaming_event_ordering "m" [wContentChunk, wEmptyDeltaChunk]).2.2.2.2.1,
    (streaming_event_ordering "m" [wEmptyDeltaChunk]).2.2.2.2.2.mpr (by decide)⟩


/-! ## OpenAI passthrough streamer with the rolling buffer
(app/api/v1/chat.py, `generate_stream`, lines 191-240)

Unlike the Anthropic re-emitter above, this generator accumulates
upstream text in a buffer, extracts complete SSE frames at the first
double newline, and keeps the incomplete trailing fragment for the next
read. Frames are modelled as `List Char`. -/

/-- Python `s.strip()` on a character list (used for the emptiness
tests of `generate_stream`): leading and trailing whitespace removed. -/
def pyStripL (l : List Char) : List Char :=
  ((l.dropWhile Char.isWhitespace).reverse.dropWhile Char.isWhitespace).reverse

theorem dropWhile_nil_all {p : Char → Bool} :
    ∀ l : List Char, l.dropWhile p = [] → ∀ x ∈ l, p x = true := by
  intro l
  induction l with
  | nil => intro _ x hx; cases hx
  | cons c cs ih =>
    intro h x hx
    rw [List.dropWhile_cons] at h
    by_cases hc : p c = true
    · rw [if_pos hc] at h
      cases hx with
      | head => exact hc
      | tail _ hx => exact ih h x hx
    · rw [if_neg hc] at h
      exact List.noConfusion h

theorem all_dropWhile_nil {p : Char → Bool} :
    ∀ l : List Char, (∀ x ∈ l, p x = true) → l.dropWhile p = [] := by
  intro l
  induction l with
  | nil => intro _; rfl
  | cons c cs ih =>
    intro h
    rw [List.dropWhile_cons, if_pos (h c (List.mem_cons_self c cs))]
    exact ih (fun x hx => h x (List.mem_cons_of_mem c hx))

theorem pyStripL_eq_nil_iff (l : List Char) :
    pyStripL l = [] ↔ ∀ c ∈ l, c.isWhitespace = true := by
  constructor
  · intro h c hc
    have h1 : (l.dropWhile Char.isWhitespace).reverse.dropWhile Char.isWhitespace
        = [] := by
      have h2 := congrArg List.reverse h
      simpa [pyStripL] using h2
    have h3 := dropWhile_nil_all _ h1
    rcases List.mem_append.mp
        (by rw [List.takeWhile_append_dropWhile]; exact hc :
          c ∈ l.takeWhile Char.isWhitespace ++ l.dropWhile Char.isWhitespace) with
      hm | hm
    · exact List.mem_takeWhile_imp hm
    · exact h3 c (List.mem_reverse.mpr hm)
  · intro h
    rw [pyStripL, all_dropWhile_nil l h]
    rfl

theorem pyStripL_append_ne (c1 c2 : List Char)
    (h1 : (pyStripL c1).isEmpty = false) :
    (pyStripL (c1 ++ c2)).isEmpty = false := by
  cases hx : (pyStripL (c1 ++ c2)).isEmpty with
  | false => rfl
  | true =>
    exfalso
    have hnil : pyStripL (c1 ++ c2) = [] := by
      cases hpy : pyStripL (c1 ++ c2) with
      | nil => rfl
      | cons a as => rw [hpy] at hx; exact Bool.noConfusion hx
    have hall : ∀ c ∈ c1 ++ c2, c.isWhitespace = true :=
      (pyStripL_eq_nil_iff _).mp hnil
    have hall1 : ∀ c ∈ c1, c.isWhitespace = true :=
      fun c hc => hall c (List.mem_append.mpr (Or.inl hc))
    rw [(pyStripL_eq_nil_iff c1).mpr hall1] at h1
    exact Bool.noConfusion h1

/-- `buffer.find('\n\n')` followed by the two slices (lines 211-213):
the first complete frame and the remaining buffer, when a double
newline occurs anywhere in the buffer. -/
def splitFirstFrame : List Char → Option (List Char × List Char)
  | [] => none
  | [_] => none
  | c1 :: c2 :: rest =>
    if c1 = '\n' ∧ c2 = '\n' then some ([], rest)
    else (splitFirstFrame (c2 :: rest)).map (fun er => (c1 :: er.1, er.2))

theorem splitFirstFrame_structure :
    ∀ l e r : List Char, splitFirstFrame l = some (e, r) →
      l = e ++ '\n' :: '\n' :: r := by
  intro l
  induction l with
  | nil => intro e r h; exact Option.noConfusion h
  | cons c1 tail ih =>
    intro e r h
    cases tail with
    | nil => exact Option.noConfusion h
    | cons c2 rest =>
      rw [splitFirstFrame] at h
      by_cases hp : c1 = '\n' ∧ c2 = '\n'
      · rw [if_pos hp] at h
        injection h with h
        have he : ([] : List Char) = e := congrArg Prod.fst h
        have hr : rest = r := congrArg Prod.snd h
        rw [← he, ← hr, List.nil_append, hp.1, hp.2]
      · rw [if_neg hp] at h
        cases hs : splitFirstFrame (c2 :: rest) with
        | none => rw [hs] at h; exact Option.noConfusion h
        | some er =>
          rw [hs] at h
          simp only [Option.map] at h
          obtain ⟨e0, r0⟩ := er
          injection h with h
          have he : c1 :: e0 = e := congrArg Prod.fst h
          have hr : r0 = r := congrArg Prod.snd h
          rw [← he, ← hr, List.cons_append, ← ih e0 r0 hs]

theorem splitFirstFrame_append (y : List Char) :
    ∀ l e r : List Char, splitFirstFrame l = some (e, r) →
      splitFirstFrame (l ++ y) = some (e, r ++ y) := by
  intro l
  induction l with
  | nil => intro e r h; exact Option.noConfusion h
  | cons c1 tail ih =>
    intro e r h
    cases tail with
    | nil => exact Option.noConfusion h
    | cons c2 rest =>
      rw [splitFirstFrame] at h
      simp only [List.cons_append]
      rw [splitFirstFrame]
      by_cases hp : c1 = '\n' ∧ c2 = '\n'
      · rw [if_pos hp] at h
        rw [if_pos hp]
        injection h with h
        have he : ([] : List Char) = e := congrArg Prod.fst h
        have hr : rest = r := congrArg Prod.snd h
        rw [← he, ← hr]
      · rw [if_neg hp] at h
        rw [if_neg hp]
        cases hs : splitFirstFrame (c2 :: rest) with
        | none => rw [hs] at h; exact Option.noConfusion h
        | some er =>
          rw [hs] at h
          simp only [Option.map] at h
          obtain ⟨e0, r0⟩ := er
          injection h with h
          have he : c1 :: e0 = e := congrArg Prod.fst h
          have hr : r0 = r := congrArg Prod.snd h
          rw [show c2 :: (rest ++ y) = (c2 :: rest) ++ y from rfl,
            ih e0 r0 hs]
          simp only [Option.map]
          rw [← he, ← hr]

/-- The `while '\n\n' in buffer` loop (lines 209-217), fuel-bounded:
all complete frames extracted in order, plus the final buffer content.
`extractFrames` supplies sufficient fuel. -/
def extractFramesB : Nat → List Char → List (List Char) × List Char
  | 0, buf => ([], buf)
  | fuel + 1, buf =>
    match splitFirstFrame buf with
    | some (e, r) => (e :: (extractFramesB fuel r).1, (extractFramesB fuel r).2)
    | none => ([], buf)

/-- The frame-extraction loop on a given buffer. -/
def extractFrames (buf : List Char) : List (List Char) × List Char :=
  extractFramesB buf.length buf

theorem extractFramesB_nil : ∀ k, extractFramesB k [] = ([], []) := by
  intro k
  cases k with
  | zero => rfl
  | succ k => rfl

theorem extractFramesB_fuel :
    ∀ n m : Nat, ∀ buf : List Char, buf.length ≤ n → buf.length ≤ m →
      extractFramesB n buf = extractFramesB m buf := by
  intro n
  induction n with
  | zero =>
    intro m buf hn _
    have hb : buf = [] := List.length_eq_zero.mp (Nat.le_zero.mp hn)
    rw [hb, extractFramesB_nil 0, extractFramesB_nil m]
  | succ n ih =>
    intro m buf hn hm
    cases m with
    | zero =>
      have hb : buf = [] := List.length_eq_zero.mp (Nat.le_zero.mp hm)
      rw [hb, extractFramesB_nil (n + 1), extractFramesB_nil 0]
    | succ m =>
      rw [extractFramesB, extractFramesB]
      cases hs : splitFirstFrame buf with
      | none => rfl
      | some er =>
        obtain ⟨e, r⟩ := er
        have hst := splitFirstFrame_structure buf e r hs
        have hlen : r.length < buf.length := by
          rw [hst]
          simp only [List.length_append, List.length_cons]
          omega
        dsimp only
        rw [ih m r (by omega) (by omega)]

theorem extractFrames_some (buf e r : List Char)
    (h : splitFirstFrame buf = some (e, r)) :
    extractFrames buf = (e :: (extractFrames r).1, (extractFrames r).2) := by
  have hst := splitFirstFrame_structure buf e r h
  have hlen : r.length < buf.length := by
    rw [hst]
    simp only [List.length_append, List.length_cons]
    omega
  obtain ⟨k, hk⟩ : ∃ k, buf.length = k + 1 := ⟨buf.length - 1, by omega⟩
  rw [extractFrames, extractFrames, hk, extractFramesB, h]
  dsimp only
  rw [extractFramesB_fuel k r.length r (by omega) (le_refl _)]

theorem extractFrames_none (buf : List Char)
    (h : splitFirstFrame buf = none) : extractFrames buf = ([], buf) := by
  rw [extractFrames]
  cases hn : buf.length with
  | zero => rfl
  | succ k =>
    rw [extractFramesB, h]

theorem extractFrames_append :
    ∀ n : Nat, ∀ l : List Char, l.length ≤ n → ∀ y : List Char,
      extractFrames (l ++ y) =
        ((extractFrames l).1 ++ (extractFrames ((extractFrames l).2 ++ y)).1,
          (extractFrames ((extractFrames l).2 ++ y)).2) := by
  intro n
  induction n with
  | zero =>
    intro l hl y
    have hb : l = [] := List.length_eq_zero.mp (Nat.le_zero.mp hl)
    subst hb
    have h0 : extractFrames ([] : List Char) = ([], []) :=
      extractFrames_none [] rfl
    simp [h0]
  | succ n ih =>
    intro l hl y
    cases hs : splitFirstFrame l with
    | none =>
      have h1 : extractFrames l = ([], l) := extractFrames_none l hs
      simp [h1]
    | some er =>
      obtain ⟨e, r⟩ := er
      have hst := splitFirstFrame_structure l e r hs
      have hrlen : r.length ≤ n := by
        rw [hst] at hl
        simp only [List.length_append, List.length_cons] at hl
        omega
      have h1 : extractFrames l = (e :: (extractFrames r).1, (extractFrames r).2) :=
        extractFrames_some l e r hs
      have h2 : extractFrames (l ++ y) =
          (e :: (extractFrames (r ++ y)).1, (extractFrames (r ++ y)).2) :=
        extractFrames_some (l ++ y) e (r ++ y) (splitFirstFrame_append y l e r hs)
      rw [h2, h1, ih r hrlen y]
      simp

/-- The per-frame yield filter (lines 215-217): a frame with
non-whitespace content is re-emitted as `event_text + "\n\n"`. -/
def yieldFrames (es : List (List Char)) : List (List Char) :=
  (es.filter (fun e => !(pyStripL e).isEmpty)).map (fun e => e ++ ['\n', '\n'])

theorem yieldFrames_append (a b : List (List Char)) :
    yieldFrames (a ++ b) = yieldFrames a ++ yieldFrames b := by
  simp [yieldFrames]

/-- One iteration of the `async for` loop (lines 194-219): a
whitespace-only chunk is skipped; otherwise the chunk joins the buffer
and every complete frame is extracted and conditionally yielded. The
state is the (yields so far, buffer) pair. -/
def bufferStep (acc : List (List Char) × List Char) (chunk : List Char) :
    List (List Char) × List Char :=
  if (pyStripL chunk).isEmpty then acc
  else
    (acc.1 ++ yieldFrames (extractFrames (acc.2 ++ chunk)).1,
      (extractFrames (acc.2 ++ chunk)).2)

/-- The final-buffer flush (lines 221-224). -/
def flushBuffer (buf : List Char) : List (List Char) :=
  if (pyStripL buf).isEmpty then [] else [buf ++ ['\n', '\n']]

/-- `generate_stream` (chat.py): the chunk loop threading the rolling
buffer, the flush of any leftover buffer content, and the closing
`data: [DONE]` frame from the `finally` block (line 237). -/
def generate_stream (chunks : List (List Char)) : List (List Char) :=
  (chunks.foldl bufferStep ([], [])).1
    ++ flushBuffer (chunks.foldl bufferStep ([], [])).2
    ++ [("data: [DONE]\n\n").data]

theorem bufferStep_pair (acc : List (List Char) × List Char) (c1 c2 : List Char)
    (h1 : (pyStripL c1).isEmpty = false) (h2 : (pyStripL c2).isEmpty = false) :
    bufferStep (bufferStep acc c1) c2 = bufferStep acc (c1 ++ c2) := by
  have h12 : (pyStripL (c1 ++ c2)).isEmpty = false := pyStripL_append_ne c1 c2 h1
  have hb1 : bufferStep acc c1 =
      (acc.1 ++ yieldFrames (extractFrames (acc.2 ++ c1)).1,
        (extractFrames (acc.2 ++ c1)).2) := by
    rw [bufferStep, if_neg (by simp [h1])]
  have hb2 : ∀ X : List (List Char) × List Char, bufferStep X c2 =
      (X.1 ++ yieldFrames (extractFrames (X.2 ++ c2)).1,
        (extractFrames (X.2 ++ c2)).2) := by
    intro X
    rw [bufferStep, if_neg (by simp [h2])]
  have hb12 : bufferStep acc (c1 ++ c2) =
      (acc.1 ++ yieldFrames (extractFrames (acc.2 ++ (c1 ++ c2))).1,
        (extractFrames (acc.2 ++ (c1 ++ c2))).2) := by
    rw [bufferStep, if_neg (by simp [h12])]
  rw [hb1, hb2, hb12]
  dsimp only
  rw [show acc.2 ++ (c1 ++ c2) = (acc.2 ++ c1) ++ c2 from
    (List.append_assoc _ _ _).symm]
  rw [extractFrames_append (acc.2 ++ c1).length (acc.2 ++ c1) (le_refl _) c2]
  dsimp only
  rw [yieldFrames_append, List.append_assoc]

theorem foldl_bufferStep_flatten :
    ∀ chunks : List (List Char), ∀ acc : List (List Char) × List Char,
      (∀ c ∈ chunks, (pyStripL c).isEmpty = false) →
      chunks.foldl bufferStep acc = bufferStep acc chunks.flatten := by
  intro chunks
  induction chunks with
  | nil => intro acc _; rfl
  | cons c cs ih =>
    intro acc h
    have hc : (pyStripL c).isEmpty = false := h c (List.mem_cons_self c cs)
    rw [List.foldl_cons]
    cases cs with
    | nil =>
      rw [List.foldl_nil]
      simp [bufferStep]
    | cons d ds =>
      have htail : ∀ x ∈ d :: ds, (pyStripL x).isEmpty = false :=
        fun x hx => h x (List.mem_cons_of_mem c hx)
      rw [ih (bufferStep acc c) htail]
      have hd : (pyStripL d).isEmpty = false := htail d (List.mem_cons_self d ds)
      have hflat : (pyStripL (List.flatten (d :: ds))).isEmpty = false := by
        rw [List.flatten_cons]
        exact pyStripL_append_ne d _ hd
      rw [bufferStep_pair acc c _ hc hflat]
      simp [List.flatten_cons]

/-- C3 counterexample: the Anthropic streaming re-emitter
(`generate_anthropic_stream`, anthropic.py) keeps no rolling buffer —
each chunk is JSON-decoded whole. Delivering the single frame
`"data: [DONE]\n\n"` in one read yields `message_start` then
`message_stop` (two events); delivering the same bytes split across two
reads yields only `message_start` (both halves fail to decode and are
skipped), so two chunkings of the same byte stream emit different
event sequences. -/
theorem streaming_reassembly_counterexample :
    ("data: [DO" ++ "NE]\n\n" : String) = "data: [DONE]\n\n"
    ∧ (generate_anthropic_stream "m" ["data: [DONE]\n\n"]).length = 2
    ∧ (generate_anthropic_stream "m" ["data: [DO", "NE]\n\n"]).length = 1
    ∧ generate_anthropic_stream "m" ["data: [DONE]\n\n"]
        ≠ generate_anthropic_stream "m" ["data: [DO", "NE]\n\n"] := by
  refine ⟨rfl, rfl, rfl, fun hcontra => ?_⟩
  have h2 : (generate_anthropic_stream "m" ["data: [DONE]\n\n"]).length
      = (generate_anthropic_stream "m" ["data: [DO", "NE]\n\n"]).length :=
    congrArg List.length hcontra
  rw [show (generate_anthropic_stream "m" ["data: [DONE]\n\n"]).length = 2
      from rfl,
    show (generate_anthropic_stream "m" ["data: [DO", "NE]\n\n"]).length = 1
      from rfl] at h2
  exact absurd h2 (by decide)

/-- C3 (amended): the buffered streamer is `generate_stream` in chat.py
(the OpenAI passthrough), not the Anthropic re-emitter. It accumulates
upstream text in a rolling buffer, extracts complete SSE frames at the
double-newline delimiter, and retains the incomplete trailing fragment
for the next read; consequently, for any chunking of the upstream byte
stream into reads none of which is whitespace-only, it emits the same
ordered frame sequence as the single-read delivery of the whole
stream — including chunkings that split a frame across two reads or
merge several frames into one read. -/
theorem stream_frame_reassembly (chunks : List (List Char))
    (h : ∀ c ∈ chunks, (pyStripL c).isEmpty = false) :
    generate_stream chunks = generate_stream [chunks.flatten] := by
  rw [generate_stream, generate_stream]
  rw [foldl_bufferStep_flatten chunks ([], []) h]
  simp only [List.foldl_cons, List.foldl_nil]

/-- Witness chunking: the first read ends mid-frame and the second read
completes it and carries a further complete frame. -/
def wSplitChunks : List (List Char) :=
  [("data: one\n\nda").data, ("ta: two\n\n").data]

/-- Witness for C3: the concrete frame-splitting chunking has no
whitespace-only read, and the buffered streamer emits for it exactly
the frames of the single-read delivery. -/
theorem stream_frame_reassembly_witness :
    (∀ c ∈ wSplitChunks, (pyStripL c).isEmpty = false)
    ∧ generate_stream wSplitChunks = generate_stream [wSplitChunks.flatten] :=
  ⟨by decide, stream_frame_reassembly wSplitChunks (by decide)⟩


/-! ## Non-streaming OpenAI-to-Anthropic response translation
(app/api/v1/anthropic.py, `create_message`, lines 214-259)

`content_blocks` is built from `choices[0].message`: one text block if
`content` is truthy, then one `tool_use` block per entry of
`tool_calls`, whose `input` is `json.loads(function.get("arguments",
"\x7b\x7d"))`. The whole construction runs inside the endpoint-wide
`try`; any raised exception (in particular a `json.JSONDecodeError`
from a malformed arguments string) becomes one HTTPException 500, so
the client never receives a partial Anthropic response. `Except`
models that: `.error` is the 500 path. -/

/-- One Anthropic content block of the translated response. -/
inductive ContentBlock where
  | text (t : JVal)
  | tool_use (id nm input : JVal)

/-- `function.get("arguments", "\x7b\x7d")` of one tool-call entry
(line 232). -/
def toolArgs (tc : JVal) : JVal :=
  objGetD (objGetD tc "function" (.obj [])) "arguments" (.str "\x7b\x7d")

/-- Lines 226-234 for one `tool_calls` entry: the `tool_use` block with
`input = json.loads(arguments)`. A decode failure — or a non-string
`arguments` value, on which `json.loads` raises a `TypeError` — is an
exception. -/
def parseToolCall (tc : JVal) : Except String ContentBlock :=
  match toolArgs tc with
  | .str s =>
    match json_loads s with
    | some v =>
      .ok (.tool_use (objGetD tc "id" .null)
        (objGetD (objGetD tc "function" (.obj [])) "name" .null) v)
    | none => .error "json.JSONDecodeError"
  | _ => .error "TypeError"

/-- The `for tool_call in message["tool_calls"]` loop: blocks in entry
order; the first exception aborts the whole translation. -/
def buildToolBlocks : List JVal → Except String (List ContentBlock)
  | [] => .ok []
  | tc :: rest =>
    match parseToolCall tc with
    | .error e => .error e
    | .ok b =>
      match buildToolBlocks rest with
      | .error e => .error e
      | .ok bs => .ok (b :: bs)

/-- Lines 221-223: the text block prepended when
`message.get("content", "")` is truthy. -/
def textBlocksOf (choice : JVal) : List ContentBlock :=
  if jtruthy (objGetD (objGetD choice "message" (.obj [])) "content" (.str ""))
  then [.text (objGetD (objGetD choice "message" (.obj [])) "content" (.str ""))]
  else []

/-- Lines 215-234: the `content_blocks` list of the non-streaming
translation, or the exception that aborts it. -/
def buildContentBlocks (resp : JVal) : Except String (List ContentBlock) :=
  match objGetD resp "choices" .null with
  | .arr [] => .ok []
  | .arr (choice :: _) =>
    if jtruthy (objGetD (objGetD choice "message" (.obj []))
        "tool_calls" .null) then
      match objGetD (objGetD choice "message" (.obj [])) "tool_calls" .null with
      | .arr tcs =>
        match buildToolBlocks tcs with
        | .ok bs => .ok (textBlocksOf choice ++ bs)
        | .error e => .error e
      | _ => .error "TypeError"
    else .ok (textBlocksOf choice)
  | v => if jtruthy v then .error "TypeError" else .ok []

theorem buildToolBlocks_all_ok :
    ∀ tcs : List JVal, (∀ tc ∈ tcs, (parseToolCall tc).isOk = true) →
      buildToolBlocks tcs =
        .ok (tcs.filterMap (fun tc => (parseToolCall tc).toOption)) := by
  intro tcs
  induction tcs with
  | nil => intro _; rfl
  | cons tc rest ih =>
    intro h
    have h1 := h tc (List.mem_cons_self tc rest)
    cases hp : parseToolCall tc with
    | error e =>
      rw [hp] at h1
      exact absurd h1 (by simp [Except.isOk, Except.toBool])
    | ok b =>
      rw [buildToolBlocks, hp,
        ih (fun x hx => h x (List.mem_cons_of_mem tc hx))]
      simp [List.filterMap_cons, hp, Except.toOption]

theorem filterMap_toolBlocks_length :
    ∀ tcs : List JVal, (∀ tc ∈ tcs, (parseToolCall tc).isOk = true) →
      (tcs.filterMap (fun tc => (parseToolCall tc).toOption)).length
        = tcs.length := by
  intro tcs
  induction tcs with
  | nil => intro _; rfl
  | cons tc rest ih =>
    intro h
    have h1 := h tc (List.mem_cons_self tc rest)
    cases hp : parseToolCall tc with
    | error e =>
      rw [hp] at h1
      exact absurd h1 (by simp [Except.isOk, Except.toBool])
    | ok b =>
      have h2 : (rest.filterMap (fun tc => (parseToolCall tc).toOption)).length
          = rest.length := ih (fun x hx => h x (List.mem_cons_of_mem tc hx))
      rw [List.filterMap_cons]
      have hsome : (parseToolCall tc).toOption = some b := by
        rw [hp]; rfl
      rw [hsome]
      simp only [List.length_cons]
      rw [h2]

theorem buildToolBlocks_err :
    ∀ tcs : List JVal, (∃ tc ∈ tcs, (parseToolCall tc).isOk = false) →
      (buildToolBlocks tcs).isOk = false := by
  intro tcs
  induction tcs with
  | nil => rintro ⟨x, hx, _⟩; cases hx
  | cons tc rest ih =>
    rintro ⟨x, hx, hxe⟩
    cases hp : parseToolCall tc with
    | error e => rw [buildToolBlocks, hp]; rfl
    | ok b =>
      rw [buildToolBlocks, hp]
      rcases List.mem_cons.mp hx with hxeq | hxr
      · rw [hxeq, hp] at hxe
        exact absurd hxe (by simp [Except.isOk, Except.toBool])
      · have hr := ih ⟨x, hxr, hxe⟩
        cases hb : buildToolBlocks rest with
        | error e => rfl
        | ok bs =>
          rw [hb] at hr
          exact absurd hr (by simp [Except.isOk, Except.toBool])

/-- C6: with `choices[0].message.tool_calls` a non-empty list, (i) if
every entry's arguments string parses, the translation succeeds and
its content is exactly the optional text block followed by one block
per tool-call entry, in order and none dropped; (ii) each successful
entry becomes the `tool_use` block whose `input` is the JSON-parse of
`function.arguments`; (iii) if any entry fails to parse, the whole
translation fails — the client receives the 500, never a partial
response. -/
theorem tool_call_translation_atomicity (resp choice : JVal)
    (rest tcs : List JVal)
    (hch : objGetD resp "choices" .null = .arr (choice :: rest))
    (htc : objGetD (objGetD choice "message" (.obj [])) "tool_calls" .null
      = .arr tcs)
    (hne : tcs ≠ []) :
    ((∀ tc ∈ tcs, (parseToolCall tc).isOk = true) →
      buildContentBlocks resp =
        .ok (textBlocksOf choice
          ++ tcs.filterMap (fun tc => (parseToolCall tc).toOption))
      ∧ (tcs.filterMap (fun tc => (parseToolCall tc).toOption)).length
          = tcs.length)
    ∧ (∀ tc s v, tc ∈ tcs → toolArgs tc = .str s → json_loads s = some v →
        parseToolCall tc = .ok (.tool_use (objGetD tc "id" .null)
          (objGetD (objGetD tc "function" (.obj [])) "name" .null) v))
    ∧ ((∃ tc ∈ tcs, (parseToolCall tc).isOk = false) →
        (buildContentBlocks resp).isOk = false) := by
  have htr : jtruthy (JVal.arr tcs) = true := by
    cases tcs with
    | nil => exact absurd rfl hne
    | cons a l => rfl
  have hopen : buildContentBlocks resp =
      (match buildToolBlocks tcs with
       | .ok bs => .ok (textBlocksOf choice ++ bs)
       | .error e => .error e) := by
    rw [buildContentBlocks.eq_def, hch]
    dsimp only
    rw [htc, if_pos htr]
  refine ⟨?_, ?_, ?_⟩
  · intro hall
    refine ⟨?_, filterMap_toolBlocks_length tcs hall⟩
    rw [hopen, buildToolBlocks_all_ok tcs hall]
  · intro tc s v _ hargs hj
    rw [parseToolCall.eq_def, hargs]
    dsimp only
    rw [hj]
  · intro hex
    rw [hopen]
    have hbt := buildToolBlocks_err tcs hex
    cases hb : buildToolBlocks tcs with
    | ok bs =>
      rw [hb] at hbt
      exact absurd hbt (by simp [Except.isOk, Except.toBool])
    | error e => rfl

/-- Witness tool call with valid JSON arguments. -/
def wToolCall1 : JVal :=
  .obj [("id", .str "call_1"),
    ("function", .obj [("name", .str "get_weather"),
      ("arguments", .str "\x7b\"city\": \"SF\"\x7d")])]

/-- Second witness tool call with valid (empty-object) arguments. -/
def wToolCall2 : JVal :=
  .obj [("id", .str "call_2"),
    ("function", .obj [("name", .str "get_time"),
      ("arguments", .str "\x7b\x7d")])]

/-- Witness tool call whose arguments string is not valid JSON. -/
def wBadToolCall : JVal :=
  .obj [("id", .str "call_3"),
    ("function", .obj [("name", .str "get_weather"),
      ("arguments", .str "\x7b\"city\"")])]

/-- Witness choice carrying text content and two valid tool calls. -/
def wToolChoice : JVal :=
  .obj [("message", .obj [("content", .str "ok"),
    ("tool_calls", .arr [wToolCall1, wToolCall2])])]

/-- Witness choice whose second tool call has malformed arguments. -/
def wBadToolChoice : JVal :=
  .obj [("message", .obj [("content", .str "ok"),
    ("tool_calls", .arr [wToolCall1, wBadToolCall])])]

/-- Witness OpenAI response with two well-formed tool calls. -/
def wToolResp : JVal := .obj [("choices", .arr [wToolChoice])]

/-- Witness OpenAI response with one malformed tool call. -/
def wBadToolResp : JVal := .obj [("choices", .arr [wBadToolChoice])]

/-- Witness for C6: the two-tool-call response translates to the text
block plus both tool blocks (none dropped), and the response with one
malformed arguments string fails whole. -/
theorem tool_call_translation_atomicity_witness :
    buildContentBlocks wToolResp =
      .ok (textBlocksOf wToolChoice
        ++ [wToolCall1, wToolCall2].filterMap
            (fun tc => (parseToolCall tc).toOption))
    ∧ ([wToolCall1, wToolCall2].filterMap
        (fun tc => (parseToolCall tc).toOption)).length = 2
    ∧ (buildContentBlocks wBadToolResp).isOk = false :=
  ⟨((tool_call_translation_atomicity wToolResp wToolChoice []
        [wToolCall1, wToolCall2] rfl rfl (List.cons_ne_nil _ _)).1
      (by decide)).1,
    ((tool_call_translation_atomicity wToolResp wToolChoice []
        [wToolCall1, wToolCall2] rfl rfl (List.cons_ne_nil _ _)).1
      (by decide)).2,
    (tool_call_translation_atomicity wBadToolResp wBadToolChoice []
        [wToolCall1, wBadToolCall] rfl rfl (List.cons_ne_nil _ _)).2.2
      ⟨wBadToolCall, List.mem_cons_of_mem _ (List.mem_cons_self _ _),
        by decide⟩⟩


/-! ## Anthropic-to-OpenAI request content conversion
(app/services/translation.py, `anthropic_to_openai_request`,
lines 206-243)

For a message whose `content` is a list, each dict item is inspected:
a `text` item becomes a text part, an `image` item with a `base64`
source becomes an `image_url` part, and any other item appends
nothing. After the loop, line 243 sets
`content = formatted_content if formatted_content else str(content)`.
Items are decoded JSON values (`JVal`). -/

/-- One entry of `formatted_content`. The `image_url` part carries the
two fields interpolated into the `data:{media_type};base64,{data}` URL
of line 219. -/
inductive OAPart where
  | text (t : JVal)
  | image_url (media_type data : JVal)

/-- The `content` finally stored in the outgoing `ChatMessage`: either
a plain string or the content-part array. -/
inductive OAContent where
  | str (s : String)
  | parts (ps : List OAPart)

/-- Python `item.get(k) == s` for a string literal `s`: a missing key
(`None`) or a non-string value compares unequal. -/
def jeqStr (o : Option JVal) (s : String) : Bool :=
  match o with
  | some (.str t) => t == s
  | _ => false

/-- Lines 211-225 for one list item: the part it contributes, if any.
A `text` item contributes a text part; an `image` item whose source
type is `base64` contributes an `image_url` part; every other item —
in particular a `tool_result` block — contributes nothing. -/
def convertItem (item : JVal) : Option OAPart :=
  if jeqStr (objGet item "type") "text" then
    some (.text (objGetD item "text" (.str "")))
  else if jeqStr (objGet item "type") "image" then
    if jeqStr (objGet (objGetD item "source" (.obj [])) "type") "base64" then
      some (.image_url
        (objGetD (objGetD item "source" (.obj [])) "media_type"
          (.str "image/jpeg"))
        (objGetD (objGetD item "source" (.obj [])) "data" (.str "")))
    else none
  else none

/-- Stand-in for Python `str(content)` on the original block list (the
fallback of line 243). Its exact text is irrelevant to every theorem
below; what matters is that the fallback is a plain string carrying the
unconverted blocks, not a content-part array. -/
def pyStrOfBlocks (items : List JVal) : String :=
  "[" ++ String.intercalate ", " (items.map (fun _ => "block")) ++ "]"

/-- Lines 209-243 for one list-valued message content: the loop
accumulates the converted parts in order; if none were produced the
content falls back to the stringified original list. -/
def convertContent (items : List JVal) : OAContent :=
  if (items.filterMap convertItem).isEmpty then
    .str (pyStrOfBlocks items)
  else .parts (items.filterMap convertItem)

/-- Witness block: a recognized text block. -/
def wTextBlock : JVal :=
  .obj [("type", .str "text"), ("text", .str "hello")]

/-- Witness block: a recognized base64 image block. -/
def wImageBlock : JVal :=
  .obj [("type", .str "image"),
    ("source", .obj [("type", .str "base64"),
      ("media_type", .str "image/png"), ("data", .str "AAAA")])]

/-- Witness block: a `tool_result` block, which the converter does not
recognize. -/
def wToolResultBlock : JVal :=
  .obj [("type", .str "tool_result"),
    ("tool_use_id", .str "toolu_1"), ("content", .str "42")]

/-- C8 counterexample: a content list holding only a `tool_result`
block is not translated to a content-part array with the block
dropped — `formatted_content` stays empty, so line 243 falls back to
`str(content)` and the unrecognized block reappears stringified as the
message content sent to the provider, rather than being dropped from a
(then empty) part array. -/
theorem content_block_dropping_counterexample :
    convertItem wToolResultBlock = none
    ∧ convertContent [wToolResultBlock]
        = .str (pyStrOfBlocks [wToolResultBlock])
    ∧ convertContent [wToolResultBlock] ≠ .parts [] :=
  ⟨rfl, rfl, fun h => OAContent.noConfusion h⟩

/-- C8 (amended): for a list-valued message content containing at
least one recognized block (a `text` block, or an `image` block with a
`base64` source), the translated content is exactly the in-order
conversion of the recognized blocks, and every unrecognized block is
silently dropped from that part array without an error. (Without any
recognized block the fallback of line 243 applies instead and the
stringified original list is sent.) -/
theorem content_block_dropping (items : List JVal)
    (h : ∃ b ∈ items, (convertItem b).isSome = true) :
    convertContent items = .parts (items.filterMap convertItem) := by
  have hne : items.filterMap convertItem ≠ [] := by
    rcases h with ⟨b, hb, hs⟩
    cases hc : convertItem b with
    | none => rw [hc] at hs; exact Bool.noConfusion hs
    | some p =>
      intro hnil
      have hm : p ∈ items.filterMap convertItem :=
        List.mem_filterMap.mpr ⟨b, hb, hc⟩
      rw [hnil] at hm
      cases hm
  rw [convertContent, if_neg (by simpa [List.isEmpty_iff] using hne)]

/-- Witness for C8: the mixed list (text, tool_result, image) converts
to exactly the text part and the image part — the `tool_result` block
is dropped, silently. -/
theorem content_block_dropping_witness :
    convertContent [wTextBlock, wToolResultBlock, wImageBlock]
      = .parts ([wTextBlock, wToolResultBlock, wImageBlock].filterMap
          convertItem)
    ∧ [wTextBlock, wToolResultBlock, wImageBlock].filterMap convertItem
      = [OAPart.text (.str "hello"),
          OAPart.image_url (.str "image/png") (.str "AAAA")] :=
  ⟨content_block_dropping [wTextBlock, wToolResultBlock, wImageBlock]
      ⟨wTextBlock, List.mem_cons_self _ _, rfl⟩,
    rfl⟩

end PortBroker
